import Mathlib

/-!
RazorCap Go client (`golang/index.go`): a shallow embedding

The client is thin glue over two HTTP endpoints plus a bounded polling loop.
Effects are made explicit:

* the world is a `Trace`, the list of effects performed so far (HTTP round
  trips and sleeps), oldest first;
* the HTTP transport of a client answers the `i`-th round trip made through it
  (`i` counts the round trips already in the trace) with either a transport
  error or a response (status code and raw body);
* `encoding/json` is a library: decoding of a response body is a parameter of
  the model; the request payload is modelled on JSON values (members in
  order, string values as Unicode text), that is, on the body up to the
  textual escapes, which the decoder of the same library undoes;
* a Go string supplied by the caller (API key, task type, task data) is a
  sequence of bytes, and `encoding/json` reads it as UTF-8, writing U+FFFD for
  every byte that is not part of a valid encoding; strings that come out of
  the JSON decoder (statuses, response keys, error texts) are valid UTF-8 and
  are kept as text;
* Go's `int` and `time.Duration` are `Int` (no arithmetic here can overflow:
  the loop counter stays below `MaxAttempts`).
-/

namespace RazorCap

/-! ## Errors -/

/-- Go `error` values as built in this file: `fmt.Errorf` with a plain format,
`fmt.Errorf` with a trailing `%w` verb (keeps the wrapped cause), and errors
handed over by the standard library (transport, JSON decoder). -/
inductive GoError where
  | errorf (msg : String)
  | wrapf (pre : String) (cause : GoError)
  | lib (msg : String)
deriving DecidableEq, Repr

/-- The `Error()` text of an error. -/
def GoError.message : GoError → String
  | .errorf msg => msg
  | .wrapf pre cause => pre ++ cause.message
  | .lib msg => msg

/-- The cause returned by `errors.Unwrap`. -/
def GoError.unwrap : GoError → Option GoError
  | .wrapf _ cause => some cause
  | _ => none

/-! ## Go strings and UTF-8 -/

/-- A Go string: its bytes, each a number below 256. -/
abbrev GoString := List Nat

/-- Constant `utf8.RuneError`, U+FFFD. -/
def RuneError : Nat := 0xFFFD

/-- Go's table `first` with `acceptRanges`, read off for a first byte: `none`
for a byte that starts no encoding, else the size of the encoding and the
range accepted for its second byte. -/
def firstByte (b0 : Nat) : Option (Nat × Nat × Nat) :=
  if b0 < 0x80 then some (1, 0, 0)
  else if b0 < 0xC2 then none
  else if b0 ≤ 0xDF then some (2, 0x80, 0xBF)
  else if b0 = 0xE0 then some (3, 0xA0, 0xBF)
  else if b0 ≤ 0xEC then some (3, 0x80, 0xBF)
  else if b0 = 0xED then some (3, 0x80, 0x9F)
  else if b0 ≤ 0xEF then some (3, 0x80, 0xBF)
  else if b0 = 0xF0 then some (4, 0x90, 0xBF)
  else if b0 ≤ 0xF3 then some (4, 0x80, 0xBF)
  else if b0 = 0xF4 then some (4, 0x80, 0x8F)
  else none

/-- Go's `utf8.DecodeRuneInString` on the non-empty string `b0 :: rest`: the
rune and the number of bytes it takes; `(RuneError, 1)` when the string does
not start with a valid encoding. -/
def DecodeRune (b0 : Nat) (rest : List Nat) : Nat × Nat :=
  match firstByte b0 with
  | none => (RuneError, 1)
  | some (sz, lo, hi) =>
    if sz = 1 then (b0, 1)
    else
      match rest with
      | [] => (RuneError, 1)
      | s1 :: rest1 =>
        if s1 < lo ∨ hi < s1 then (RuneError, 1)
        else if sz = 2 then ((b0 % 32) * 64 + s1 % 64, 2)
        else
          match rest1 with
          | [] => (RuneError, 1)
          | s2 :: rest2 =>
            if s2 < 0x80 ∨ 0xBF < s2 then (RuneError, 1)
            else if sz = 3 then ((b0 % 16) * 4096 + (s1 % 64) * 64 + s2 % 64, 3)
            else
              match rest2 with
              | [] => (RuneError, 1)
              | s3 :: _ =>
                if s3 < 0x80 ∨ 0xBF < s3 then (RuneError, 1)
                else ((b0 % 8) * 262144 + (s1 % 64) * 4096 + (s2 % 64) * 64 + s3 % 64, 4)

/-- Go's `utf8.AppendRune`: the UTF-8 encoding of a rune; a surrogate or a
value above U+10FFFF is encoded as U+FFFD. -/
def EncodeRune (r : Nat) : List Nat :=
  if r < 0x80 then [r]
  else if r ≤ 0x7FF then [0xC0 + r / 64, 0x80 + r % 64]
  else if 0x10FFFF < r ∨ (0xD800 ≤ r ∧ r ≤ 0xDFFF) then [0xEF, 0xBF, 0xBD]
  else if r ≤ 0xFFFF then [0xE0 + r / 4096, 0x80 + r / 64 % 64, 0x80 + r % 64]
  else [0xF0 + r / 262144, 0x80 + r / 4096 % 64, 0x80 + r / 64 % 64, 0x80 + r % 64]

/-- The runes `encoding/json` reads from a Go string when it writes it: rune by
rune with `DecodeRune`, an invalid byte counting as U+FFFD. `fuel` bounds the
number of runes. -/
def decodeRunes : Nat → List Nat → List Nat
  | 0, _ => []
  | _ + 1, [] => []
  | fuel + 1, b0 :: rest =>
    (DecodeRune b0 rest).1 :: decodeRunes fuel (rest.drop ((DecodeRune b0 rest).2 - 1))

/-- The value of the JSON string `json.Marshal` writes for a Go string. -/
def jsonText (s : GoString) : String :=
  String.mk ((decodeRunes s.length s).map Char.ofNat)

/-- The scan behind Go's `utf8.ValidString`: no step of the rune-by-rune
reading meets an invalid byte. -/
def validRunes : Nat → List Nat → Bool
  | 0, _ => true
  | _ + 1, [] => true
  | fuel + 1, b0 :: rest =>
    decide (DecodeRune b0 rest ≠ (RuneError, 1)) &&
      validRunes fuel (rest.drop ((DecodeRune b0 rest).2 - 1))

/-- Go's `utf8.ValidString`. -/
def ValidString (s : GoString) : Bool := validRunes s.length s

/-- The UTF-8 encoding of a list of characters. -/
def encodeRunes : List Char → GoString
  | [] => []
  | ch :: rest => EncodeRune ch.toNat ++ encodeRunes rest

/-- The Go string that holds a text: what the JSON decoder stores for a JSON
string value, and what a Go string literal denotes. -/
def goString (text : String) : GoString := encodeRunes text.data

/-! ## JSON values and `encoding/json` on structs of strings -/

/-- JSON values; object members keep their order. -/
inductive Json where
  | null
  | bool (b : Bool)
  | num (n : Int)
  | str (s : String)
  | arr (items : List Json)
  | obj (members : List (String × Json))

/-- The word `encoding/json` uses for a JSON value in a type error. -/
def Json.kind : Json → String
  | .null => "null"
  | .bool _ => "bool"
  | .num _ => "number"
  | .str _ => "string"
  | .arr _ => "array"
  | .obj _ => "object"

/-- The `*json.UnmarshalTypeError` the decoder reports for a JSON value that
does not fit the Go value it meets; only its field `Value` is kept. -/
structure UnmarshalTypeError where
  Value : String
deriving DecidableEq, Repr

/-- One exported struct field as the encoder sees it: the name from its
`json:"..."` tag, whether the tag carries `omitempty`, whether the Go value is
empty in the sense of `isEmptyValue`, and the encoded value. -/
structure Field where
  name : String
  omitempty : Bool
  isEmpty : Bool
  value : Json

/-- A field of Go type `string` (or of a named string type): it is empty when
its length is 0, and is written as a JSON string. -/
def stringField (name : String) (omitempty : Bool) (s : GoString) : Field :=
  { name := name, omitempty := omitempty, isEmpty := s.length == 0, value := .str (jsonText s) }

/-- A field of struct type: never empty. -/
def structField (name : String) (omitempty : Bool) (value : Json) : Field :=
  { name := name, omitempty := omitempty, isEmpty := false, value := value }

/-- The struct case of `json.Marshal`: the fields in declaration order, an
`omitempty` field being skipped when its value is empty. -/
def marshalStruct (fields : List Field) : Json :=
  .obj ((fields.filter (fun f => !(f.omitempty && f.isEmpty))).map
    (fun f => (f.name, f.value)))

/-- Case folding of one character of a member name, as far as it can make a
name equal to an ASCII field name: ASCII letters go to upper case, and the two
non-ASCII characters that fold to ASCII letters, U+017F and U+212A, go to `S`
and `K`. -/
def foldChar (ch : Char) : Char :=
  if 97 ≤ ch.toNat ∧ ch.toNat ≤ 122 then Char.ofNat (ch.toNat - 32)
  else if ch.toNat = 0x17F then 'S'
  else if ch.toNat = 0x212A then 'K'
  else ch

/-- The folded form of a member name (`foldName` in `encoding/json`). -/
def foldName (name : String) : String := String.mk (name.data.map foldChar)

/-- The field a member name selects when decoding into a struct whose fields
have the JSON names `names`: the field of exactly that name, else the first
field whose name is equal to it after folding, else none (the member is
skipped). -/
def findField (names : List String) (key : String) : Option String :=
  match names.find? (fun n => decide (n = key)) with
  | some n => some n
  | none => names.find? (fun n => decide (foldName n = foldName key))

/-- Decoding a JSON value into a Go `string` that holds `cur`: null leaves it
alone, a JSON string is stored as its UTF-8 encoding, anything else is a type
error. -/
def unmarshalString (v : Json) (cur : GoString) : Except UnmarshalTypeError GoString :=
  match v with
  | .null => .ok cur
  | .str text => .ok (goString text)
  | other => .error { Value := other.kind }

/-! ## Data model -/

/-- Constant `BaseURL`. -/
def BaseURL : String := "https://api.razorcap.xyz"

/-- Go type `HCaptchaType`, a string. -/
abbrev HCaptchaType := GoString

/-- Constant `HCaptchaBasic`. -/
def HCaptchaBasic : HCaptchaType := goString "hcaptcha_basic"

/-- Constant `HCaptchaEnterprise`. -/
def HCaptchaEnterprise : HCaptchaType := goString "hcaptcha_enterprise"

/-- Struct `HCaptchaTaskData`. -/
structure HCaptchaTaskData where
  Sitekey : GoString
  Siteurl : GoString
  Proxy : GoString
  Rqdata : GoString
deriving DecidableEq, Repr

/-- Struct `CreateTaskResponse`, filled by the JSON decoder. -/
structure CreateTaskResponse where
  Price : String
  Status : String
  TaskID : Int
deriving DecidableEq, Repr

/-- Struct `TaskResult`, filled by the JSON decoder. -/
structure TaskResult where
  ResponseKey : String
  Status : String
  Error : String
deriving DecidableEq, Repr

/-- The anonymous `payload` struct of `CreateTask`. -/
structure CreateTaskPayload where
  Key : GoString
  Type_ : HCaptchaType
  Data : HCaptchaTaskData
deriving DecidableEq, Repr

/-- What `json.Marshal` does on `HCaptchaTaskData`, following its field tags
(`rqdata` is the only `omitempty` field). -/
def HCaptchaTaskData.marshal (d : HCaptchaTaskData) : Json :=
  marshalStruct
    [ stringField "sitekey" false d.Sitekey,
      stringField "siteurl" false d.Siteurl,
      stringField "proxy" false d.Proxy,
      stringField "rqdata" true d.Rqdata ]

/-- The call `json.Marshal(payload)` in `CreateTask`, following the payload's tags.
It cannot fail on a struct of strings, so the `err != nil` branch after it is dead. -/
def CreateTaskPayload.marshal (p : CreateTaskPayload) : Json :=
  marshalStruct
    [ stringField "key" false p.Key,
      stringField "type" false p.Type_,
      structField "data" false p.Data.marshal ]

/-- The JSON names of the fields of `HCaptchaTaskData`. -/
def HCaptchaTaskData.fieldNames : List String := ["sitekey", "siteurl", "proxy", "rqdata"]

/-- The JSON names of the fields of the payload struct. -/
def CreateTaskPayload.fieldNames : List String := ["key", "type", "data"]

/-- The decoder meeting one member of an object while it fills an
`HCaptchaTaskData`: the member goes to the field its name selects. -/
def HCaptchaTaskData.storeMember (d : HCaptchaTaskData) (key : String) (v : Json) :
    Except UnmarshalTypeError HCaptchaTaskData :=
  match findField HCaptchaTaskData.fieldNames key with
  | none => .ok d
  | some name =>
    if name = "sitekey" then
      (unmarshalString v d.Sitekey).map (fun s => { d with Sitekey := s })
    else if name = "siteurl" then
      (unmarshalString v d.Siteurl).map (fun s => { d with Siteurl := s })
    else if name = "proxy" then
      (unmarshalString v d.Proxy).map (fun s => { d with Proxy := s })
    else
      (unmarshalString v d.Rqdata).map (fun s => { d with Rqdata := s })

/-- The members of an object stored one after the other, in their order, into
the same `HCaptchaTaskData`; the first type error is the one reported. -/
def HCaptchaTaskData.storeMembers :
    List (String × Json) → HCaptchaTaskData → Except UnmarshalTypeError HCaptchaTaskData
  | [], d => .ok d
  | (key, v) :: rest, d =>
    match d.storeMember key v with
    | .error e => .error e
    | .ok d1 => HCaptchaTaskData.storeMembers rest d1

/-- What `json.Unmarshal` does with a JSON value and an `HCaptchaTaskData`
that holds `cur`: null leaves it alone, an object is stored member by member
into it, anything else is a type error. -/
def HCaptchaTaskData.unmarshal (v : Json) (cur : HCaptchaTaskData) :
    Except UnmarshalTypeError HCaptchaTaskData :=
  match v with
  | .null => .ok cur
  | .obj members => HCaptchaTaskData.storeMembers members cur
  | other => .error { Value := other.kind }

/-- The decoder meeting one member of an object while it fills the payload
struct; a `data` member is decoded into the `Data` the struct holds by then. -/
def CreateTaskPayload.storeMember (p : CreateTaskPayload) (key : String) (v : Json) :
    Except UnmarshalTypeError CreateTaskPayload :=
  match findField CreateTaskPayload.fieldNames key with
  | none => .ok p
  | some name =>
    if name = "key" then
      (unmarshalString v p.Key).map (fun s => { p with Key := s })
    else if name = "type" then
      (unmarshalString v p.Type_).map (fun s => { p with Type_ := s })
    else
      (HCaptchaTaskData.unmarshal v p.Data).map (fun d => { p with Data := d })

/-- The members of an object stored one after the other into the same payload
struct; the first type error is the one reported. -/
def CreateTaskPayload.storeMembers :
    List (String × Json) → CreateTaskPayload → Except UnmarshalTypeError CreateTaskPayload
  | [], p => .ok p
  | (key, v) :: rest, p =>
    match p.storeMember key v with
    | .error e => .error e
    | .ok p1 => CreateTaskPayload.storeMembers rest p1

/-- What `json.Unmarshal` does with a request body and a zero-valued payload
struct of the shape `CreateTask` marshals (what an echoing mock server does). -/
def CreateTaskPayload.unmarshal (v : Json) : Except UnmarshalTypeError CreateTaskPayload :=
  let zero : CreateTaskPayload :=
    { Key := [], Type_ := [], Data := { Sitekey := [], Siteurl := [], Proxy := [], Rqdata := [] } }
  match v with
  | .null => .ok zero
  | .obj members => CreateTaskPayload.storeMembers members zero
  | other => .error { Value := other.kind }

/-! ## HTTP and the trace of effects -/

/-- An outgoing `http.Request`, as far as this client fills it in. -/
structure Request where
  Method : String
  URL : String
  Header : List (String × String)
  Body : Option Json

/-- An incoming `http.Response`: status code and raw body bytes (as text). -/
structure Response where
  StatusCode : Int
  Body : String
deriving DecidableEq, Repr

/-- An observable effect. `Duration` values are nanoseconds. -/
inductive Event where
  | roundTrip (req : Request)
  | sleep (d : Int)

/-- The effects performed so far, oldest first. -/
abbrev Trace := List Event

/-- Is the event an HTTP round trip? -/
def Event.isRoundTrip : Event → Bool
  | .roundTrip _ => true
  | .sleep _ => false

/-- Number of HTTP round trips in a trace. -/
def fetchCalls (t : Trace) : Nat := t.countP Event.isRoundTrip

/-- The durations of the sleeps in a trace, oldest first. -/
def sleepDurations (t : Trace) : List Int :=
  t.filterMap (fun e => match e with
    | .sleep d => some d
    | .roundTrip _ => none)

/-- The `*http.Client` of a `Client`: its answer to a request depends on how
many round trips were made before and on the request. -/
structure HTTPClient where
  answer : Nat → Request → Except GoError Response

/-- The call `HTTPClient.Do(req)`: one round trip, answered by the transport. -/
def HTTPClient.Do (h : HTTPClient) (req : Request) (t : Trace) :
    Except GoError Response × Trace :=
  (h.answer (fetchCalls t) req, t ++ [.roundTrip req])

/-- The call `time.Sleep(d)`. -/
def Sleep (d : Int) (t : Trace) : Trace := t ++ [.sleep d]

/-- Struct `Client`. -/
structure Client where
  APIKey : GoString
  HTTPClient : HTTPClient

/-- Constant `time.Second`, in nanoseconds. -/
def Second : Int := 1000000000

/-- The request `CreateTask` builds (`http.NewRequest` plus the header). -/
def createTaskRequest (c : Client) (taskData : HCaptchaTaskData) (taskType : HCaptchaType) :
    Request :=
  let payload : CreateTaskPayload := { Key := c.APIKey, Type_ := taskType, Data := taskData }
  { Method := "POST"
    URL := BaseURL ++ "/create_task"
    Header := [("Content-Type", "application/json")]
    Body := some payload.marshal }

/-- Method `CreateTask`. `decode` is `json.NewDecoder(body).Decode` into a
`CreateTaskResponse`. `http.NewRequest` cannot fail here (constant method and
URL), so its `err != nil` branch is dead, like the one after `json.Marshal`. -/
def CreateTask (decode : String → Except GoError CreateTaskResponse) (c : Client)
    (taskData : HCaptchaTaskData) (taskType : HCaptchaType) (t : Trace) :
    Except GoError CreateTaskResponse × Trace :=
  let req := createTaskRequest c taskData taskType
  match c.HTTPClient.Do req t with
  | (.error err, t1) => (.error (.wrapf "error making request: " err), t1)
  | (.ok resp, t1) =>
    if resp.StatusCode ≠ 200 then
      (.error (.errorf ("unexpected status code: " ++ toString resp.StatusCode)), t1)
    else
      match decode resp.Body with
      | .error err => (.error (.wrapf "error decoding response: " err), t1)
      | .ok result => (.ok result, t1)

/-- The request `GetTaskResult` builds. -/
def getTaskResultRequest (taskID : Int) : Request :=
  { Method := "GET"
    URL := BaseURL ++ "/get_result/" ++ toString taskID
    Header := []
    Body := none }

/-- Method `GetTaskResult`. `decode` is `json.NewDecoder(body).Decode` into a
`TaskResult`. `http.NewRequest` cannot fail here (constant method, and a URL
that is the base URL followed by a decimal number). -/
def GetTaskResult (decode : String → Except GoError TaskResult) (c : Client)
    (taskID : Int) (t : Trace) : Except GoError TaskResult × Trace :=
  let req := getTaskResultRequest taskID
  match c.HTTPClient.Do req t with
  | (.error err, t1) => (.error (.wrapf "error making request: " err), t1)
  | (.ok resp, t1) =>
    if resp.StatusCode ≠ 200 then
      (.error (.errorf ("unexpected status code: " ++ toString resp.StatusCode)), t1)
    else
      match decode resp.Body with
      | .error err => (.error (.wrapf "error decoding response: " err), t1)
      | .ok result => (.ok result, t1)

/-- Struct `WaitOptions`; `Delay` is a `time.Duration`, in nanoseconds. -/
structure WaitOptions where
  MaxAttempts : Int
  Delay : Int
deriving DecidableEq, Repr

/-- Function `DefaultWaitOptions`. -/
def DefaultWaitOptions : WaitOptions :=
  { MaxAttempts := 60, Delay := 5 * Second }

/-- The `for attempt := ...; attempt < opts.MaxAttempts; attempt++` loop of
`WaitForResult` together with the final `return`, from the loop guard onwards.
`fuel` bounds the number of guard evaluations; `none` means it ran out. -/
def waitLoop (decode : String → Except GoError TaskResult) (c : Client) (taskID : Int)
    (opts : WaitOptions) : Nat → Int → Trace → Option (Except GoError TaskResult × Trace)
  | 0, _, _ => none
  | fuel + 1, attempt, t =>
    if attempt < opts.MaxAttempts then
      match GetTaskResult decode c taskID t with
      | (.error err, t1) => some (.error (.wrapf "error getting task result: " err), t1)
      | (.ok result, t1) =>
        if result.Status = "solved" then
          some (.ok result, t1)
        else if result.Status = "error" then
          some (.error (.errorf ("task failed: " ++ result.Error)), t1)
        else
          waitLoop decode c taskID opts fuel (attempt + 1) (Sleep opts.Delay t1)
    else
      some (.error (.errorf ("task " ++ toString taskID ++ " did not complete within " ++
        toString opts.MaxAttempts ++ " attempts")), t)

/-- Method `WaitForResult`: the loop from `attempt = 0`, with one
guard evaluation more than the loop can have iterations. -/
def WaitForResult (decode : String → Except GoError TaskResult) (c : Client) (taskID : Int)
    (opts : WaitOptions) (t : Trace) : Option (Except GoError TaskResult × Trace) :=
  waitLoop decode c taskID opts (opts.MaxAttempts.toNat + 1) 0 t

/-! ## Reading a run -/

/-- What `GetTaskResult` returns when exactly `i` round trips were made through
the client before the call. -/
def fetchOutcome (decode : String → Except GoError TaskResult) (c : Client) (taskID : Int)
    (i : Nat) : Except GoError TaskResult :=
  (GetTaskResult decode c taskID
    (List.replicate i (Event.roundTrip (getTaskResultRequest taskID)))).1

/-- A fetch outcome that makes the wait loop go on: the fetch succeeded and
its status is neither "solved" nor "error". -/
def isPending : Except GoError TaskResult → Bool
  | .ok r => decide (r.Status ≠ "solved") && decide (r.Status ≠ "error")
  | .error _ => false

/-- The effects of `n` loop iterations that end in the `default` branch: a
fetch of `taskID` followed by a sleep of `d`, `n` times over. -/
def pollCycles (taskID : Int) (d : Int) : Nat → Trace
  | 0 => []
  | n + 1 => Event.roundTrip (getTaskResultRequest taskID) :: Event.sleep d ::
      pollCycles taskID d n

/-- The error `WaitForResult` returns after its loop. -/
def attemptsExceeded (taskID : Int) (opts : WaitOptions) : GoError :=
  .errorf ("task " ++ toString taskID ++ " did not complete within " ++
    toString opts.MaxAttempts ++ " attempts")

/-- Folding of statuses the loop does not interpret into "pending". -/
def foldStatus (r : TaskResult) : TaskResult :=
  if r.Status = "solved" ∨ r.Status = "error" then r else { r with Status := "pending" }

/-- Folding applied to a fetch outcome; a failed fetch is left alone. -/
def foldOutcome : Except GoError TaskResult → Except GoError TaskResult
  | .ok r => .ok (foldStatus r)
  | .error err => .error err

/-! ## Scripted services used to run the model on concrete inputs -/

/-- A decoder for scripted services: a body that is listed in `table` decodes
to the result listed with it, any other body does not decode. -/
def scriptDecode (table : List (String × TaskResult)) (body : String) :
    Except GoError TaskResult :=
  match table with
  | [] => .error (.lib "invalid character looking for beginning of value")
  | (b, r) :: rest => if b = body then .ok r else scriptDecode rest body

/-- The bodies used by the scripted services below. -/
def demoBodies : List (String × TaskResult) :=
  [ ("pending", { ResponseKey := "", Status := "pending", Error := "" }),
    ("processing", { ResponseKey := "", Status := "processing", Error := "" }),
    ("Solved", { ResponseKey := "", Status := "Solved", Error := "" }),
    ("", { ResponseKey := "", Status := "", Error := "" }),
    ("solved", { ResponseKey := "P1_token", Status := "solved", Error := "" }),
    ("error", { ResponseKey := "", Status := "error", Error := "invalid sitekey" }) ]

/-- Task data used on concrete runs. -/
def demoTaskData : HCaptchaTaskData :=
  { Sitekey := goString "a5f74b19-9e45-40e0-b45d-47ff91b7a6c2"
    Siteurl := goString "https://example.com/café"
    Proxy := goString "user:pass@127.0.0.1:8080"
    Rqdata := [] }

/-- A client whose transport answers round trip `i` with entry `i` of the
script and repeats `last` once the script is used up. -/
def scriptClient (script : List (Except GoError Response)) (last : Except GoError Response) :
    Client :=
  { APIKey := goString "test-key"
    HTTPClient := { answer := fun i _ => script.getD i last } }

/-- A client whose API key is the single byte 0xFF, which is not valid UTF-8. -/
def invalidKeyClient : Client :=
  { APIKey := [0xFF]
    HTTPClient := { answer := fun _ _ => .ok { StatusCode := 200, Body := "" } } }

/-- A 200 response with the given body. -/
def ok200 (body : String) : Except GoError Response :=
  .ok { StatusCode := 200, Body := body }

/-! ## Basic facts about traces -/

theorem fetchCalls_append (t u : Trace) : fetchCalls (t ++ u) = fetchCalls t + fetchCalls u := by
  simp [fetchCalls]

theorem fetchCalls_replicate (req : Request) (i : Nat) :
    fetchCalls (List.replicate i (Event.roundTrip req)) = i := by
  induction i with
  | zero => rfl
  | succ n ih =>
    simp only [List.replicate_succ, fetchCalls, List.countP_cons, Event.isRoundTrip] at ih ⊢
    simp [ih]

theorem fetchCalls_pollCycles (taskID d : Int) (n : Nat) :
    fetchCalls (pollCycles taskID d n) = n := by
  induction n with
  | zero => rfl
  | succ n ih =>
    simp only [pollCycles, fetchCalls, List.countP_cons, Event.isRoundTrip] at ih ⊢
    simp [ih]

theorem sleepDurations_append (t u : Trace) :
    sleepDurations (t ++ u) = sleepDurations t ++ sleepDurations u := by
  simp [sleepDurations]

theorem sleepDurations_pollCycles (taskID d : Int) (n : Nat) :
    sleepDurations (pollCycles taskID d n) = List.replicate n d := by
  induction n with
  | zero => rfl
  | succ n ih =>
    simp only [sleepDurations, pollCycles, List.filterMap_cons, List.replicate_succ] at ih ⊢
    rw [ih]

theorem pollCycles_succ_append (taskID d : Int) (n : Nat) :
    pollCycles taskID d (n + 1) =
      pollCycles taskID d n ++ [Event.roundTrip (getTaskResultRequest taskID), Event.sleep d] := by
  induction n with
  | zero => rfl
  | succ n ih =>
    have h : pollCycles taskID d (n + 1 + 1) =
        Event.roundTrip (getTaskResultRequest taskID) :: Event.sleep d ::
          pollCycles taskID d (n + 1) := rfl
    rw [h]
    nth_rewrite 1 [ih]
    rfl

/-- The result of `GetTaskResult` depends on the trace only through the
number of earlier round trips, and its effect is one round trip. -/
theorem GetTaskResult_eq (decode : String → Except GoError TaskResult) (c : Client)
    (taskID : Int) (t : Trace) :
    GetTaskResult decode c taskID t =
      (fetchOutcome decode c taskID (fetchCalls t),
        t ++ [Event.roundTrip (getTaskResultRequest taskID)]) := by
  simp only [GetTaskResult, fetchOutcome, HTTPClient.Do, fetchCalls_replicate]
  cases c.HTTPClient.answer (fetchCalls t) (getTaskResultRequest taskID) with
  | error err => rfl
  | ok resp =>
    by_cases hs : resp.StatusCode = 200
    · simp only [hs, ne_eq, not_true_eq_false, if_false]
      cases decode resp.Body <;> rfl
    · simp only [ne_eq, hs, not_false_eq_true, if_true]

/-- The three ways `GetTaskResult` fails when `i` round trips were made before
it: the transport fails, the status code is not 200, or the body does not
decode. -/
theorem fetchOutcome_failures (decode : String → Except GoError TaskResult) (c : Client)
    (taskID : Int) (i : Nat) :
    (∀ e, c.HTTPClient.answer i (getTaskResultRequest taskID) = .error e →
      fetchOutcome decode c taskID i = .error (.wrapf "error making request: " e)) ∧
    (∀ resp, c.HTTPClient.answer i (getTaskResultRequest taskID) = .ok resp →
      resp.StatusCode ≠ 200 →
      fetchOutcome decode c taskID i =
        .error (.errorf ("unexpected status code: " ++ toString resp.StatusCode))) ∧
    (∀ resp e, c.HTTPClient.answer i (getTaskResultRequest taskID) = .ok resp →
      resp.StatusCode = 200 → decode resp.Body = .error e →
      fetchOutcome decode c taskID i = .error (.wrapf "error decoding response: " e)) := by
  refine ⟨?_, ?_, ?_⟩
  · intro e he
    simp only [fetchOutcome, GetTaskResult, HTTPClient.Do, fetchCalls_replicate, he]
  · intro resp hresp hs
    simp only [fetchOutcome, GetTaskResult, HTTPClient.Do, fetchCalls_replicate, hresp, ne_eq,
      hs, not_false_eq_true, if_true]
  · intro resp e hresp hs hd
    simp only [fetchOutcome, GetTaskResult, HTTPClient.Do, fetchCalls_replicate, hresp, ne_eq,
      hs, not_true_eq_false, if_false, hd]

/-! ## One iteration of the wait loop -/

section Loop

variable (decode : String → Except GoError TaskResult) (c : Client) (taskID : Int)
  (opts : WaitOptions)

theorem waitLoop_exhausted (fuel : Nat) (attempt : Int) (t : Trace)
    (h : ¬ attempt < opts.MaxAttempts) :
    waitLoop decode c taskID opts (fuel + 1) attempt t =
      some (.error (attemptsExceeded taskID opts), t) := by
  simp only [waitLoop, h, if_false, attemptsExceeded]

theorem waitLoop_fetch_failed (fuel : Nat) (attempt : Int) (t : Trace) (err : GoError)
    (h : attempt < opts.MaxAttempts)
    (hf : fetchOutcome decode c taskID (fetchCalls t) = .error err) :
    waitLoop decode c taskID opts (fuel + 1) attempt t =
      some (.error (.wrapf "error getting task result: " err),
        t ++ [Event.roundTrip (getTaskResultRequest taskID)]) := by
  simp only [waitLoop, h, if_true, GetTaskResult_eq, hf]

theorem waitLoop_solved (fuel : Nat) (attempt : Int) (t : Trace) (r : TaskResult)
    (h : attempt < opts.MaxAttempts)
    (hf : fetchOutcome decode c taskID (fetchCalls t) = .ok r) (hs : r.Status = "solved") :
    waitLoop decode c taskID opts (fuel + 1) attempt t =
      some (.ok r, t ++ [Event.roundTrip (getTaskResultRequest taskID)]) := by
  simp only [waitLoop, h, if_true, GetTaskResult_eq, hf, hs]

theorem waitLoop_task_failed (fuel : Nat) (attempt : Int) (t : Trace) (r : TaskResult)
    (h : attempt < opts.MaxAttempts)
    (hf : fetchOutcome decode c taskID (fetchCalls t) = .ok r) (hs : r.Status = "error") :
    waitLoop decode c taskID opts (fuel + 1) attempt t =
      some (.error (.errorf ("task failed: " ++ r.Error)),
        t ++ [Event.roundTrip (getTaskResultRequest taskID)]) := by
  have hne : ¬ ("error" = "solved") := by decide
  simp only [waitLoop, h, if_true, GetTaskResult_eq, hf, hs, hne, if_false]

theorem waitLoop_other_status (fuel : Nat) (attempt : Int) (t : Trace) (r : TaskResult)
    (h : attempt < opts.MaxAttempts)
    (hf : fetchOutcome decode c taskID (fetchCalls t) = .ok r)
    (h1 : r.Status ≠ "solved") (h2 : r.Status ≠ "error") :
    waitLoop decode c taskID opts (fuel + 1) attempt t =
      waitLoop decode c taskID opts fuel (attempt + 1)
        (t ++ [Event.roundTrip (getTaskResultRequest taskID), Event.sleep opts.Delay]) := by
  simp only [waitLoop, h, if_true, GetTaskResult_eq, hf, h1, h2, if_false, Sleep,
    List.append_assoc, List.singleton_append]

theorem isPending_iff (o : Except GoError TaskResult) :
    isPending o = true ↔ ∃ r, o = .ok r ∧ r.Status ≠ "solved" ∧ r.Status ≠ "error" := by
  cases o with
  | error err => simp [isPending]
  | ok r => simp [isPending]

theorem waitLoop_pending (fuel : Nat) (attempt : Int) (t : Trace)
    (h : attempt < opts.MaxAttempts)
    (hp : isPending (fetchOutcome decode c taskID (fetchCalls t)) = true) :
    waitLoop decode c taskID opts (fuel + 1) attempt t =
      waitLoop decode c taskID opts fuel (attempt + 1)
        (t ++ [Event.roundTrip (getTaskResultRequest taskID), Event.sleep opts.Delay]) := by
  obtain ⟨r, hf, h1, h2⟩ := (isPending_iff _).1 hp
  exact waitLoop_other_status decode c taskID opts fuel attempt t r h hf h1 h2

/-- After `j` fetches that all came back with an uninterpreted status the loop
stands at attempt `attempt + j`, having performed `j` fetch-and-sleep cycles. -/
theorem waitLoop_pending_cycles (j : Nat) :
    ∀ (fuel : Nat) (attempt : Int) (t : Trace),
      attempt + j ≤ opts.MaxAttempts →
      (∀ i, i < j → isPending (fetchOutcome decode c taskID (fetchCalls t + i)) = true) →
      waitLoop decode c taskID opts (fuel + j) attempt t =
        waitLoop decode c taskID opts fuel (attempt + j)
          (t ++ pollCycles taskID opts.Delay j) := by
  induction j with
  | zero =>
    intro fuel attempt t _ _
    simp [pollCycles]
  | succ j ih =>
    intro fuel attempt t hle hp
    have hlt : attempt < opts.MaxAttempts := by push_cast at hle; omega
    have h0 : isPending (fetchOutcome decode c taskID (fetchCalls t)) = true := by
      simpa using hp 0 (Nat.succ_pos j)
    have hstep := waitLoop_pending decode c taskID opts (fuel + j) attempt t hlt h0
    rw [show fuel + (j + 1) = fuel + j + 1 by omega, hstep]
    rw [ih fuel (attempt + 1)
      (t ++ [Event.roundTrip (getTaskResultRequest taskID), Event.sleep opts.Delay])
      (by push_cast at hle ⊢; omega)
      (by
        intro i hi
        have := hp (i + 1) (by omega)
        rw [fetchCalls_append]
        have h1 : fetchCalls [Event.roundTrip (getTaskResultRequest taskID),
            Event.sleep opts.Delay] = 1 := rfl
        rw [h1, show fetchCalls t + 1 + i = fetchCalls t + (i + 1) by omega]
        exact this)]
    congr 1
    · push_cast; ring
    · simp [pollCycles]

end Loop

/-! ## Whole runs -/

section Runs

variable (decode : String → Except GoError TaskResult) (c : Client) (taskID : Int)
  (opts : WaitOptions)

/-- A run whose first `j` fetches all came back with an uninterpreted status,
`j` being below `MaxAttempts`, reaches the guard of iteration `j` with fuel
left, after `j` fetch-and-sleep cycles. -/
theorem WaitForResult_after_pending (t : Trace) (j : Nat) (hj : (j : Int) < opts.MaxAttempts)
    (hp : ∀ i, i < j → isPending (fetchOutcome decode c taskID (fetchCalls t + i)) = true) :
    ∃ fuel, WaitForResult decode c taskID opts t =
      waitLoop decode c taskID opts (fuel + 1) j (t ++ pollCycles taskID opts.Delay j) := by
  refine ⟨opts.MaxAttempts.toNat - j, ?_⟩
  have hfuel : opts.MaxAttempts.toNat + 1 = (opts.MaxAttempts.toNat - j + 1) + j := by omega
  unfold WaitForResult
  rw [hfuel, waitLoop_pending_cycles decode c taskID opts j _ 0 t (by omega) hp]
  simp

theorem fetchCalls_after_cycles (t : Trace) (d : Int) (j : Nat) :
    fetchCalls (t ++ pollCycles taskID d j) = fetchCalls t + j := by
  rw [fetchCalls_append, fetchCalls_pollCycles]

theorem fetchCalls_after_cycles_fetch (t : Trace) (d : Int) (j : Nat) :
    fetchCalls (t ++ pollCycles taskID d j ++ [Event.roundTrip (getTaskResultRequest taskID)]) =
      fetchCalls t + (j + 1) := by
  rw [fetchCalls_append, fetchCalls_after_cycles]
  rfl

theorem sleepDurations_after_cycles (t : Trace) (d : Int) (j : Nat) :
    sleepDurations (t ++ pollCycles taskID d j) = sleepDurations t ++ List.replicate j d := by
  rw [sleepDurations_append, sleepDurations_pollCycles]

theorem sleepDurations_after_cycles_fetch (t : Trace) (d : Int) (j : Nat) :
    sleepDurations (t ++ pollCycles taskID d j ++
      [Event.roundTrip (getTaskResultRequest taskID)]) =
      sleepDurations t ++ List.replicate j d := by
  rw [sleepDurations_append, sleepDurations_after_cycles]
  simp [sleepDurations]

theorem pending_of_status (o : Except GoError TaskResult)
    (h : ∃ r, o = .ok r ∧ r.Status ≠ "solved" ∧ r.Status ≠ "error") : isPending o = true :=
  (isPending_iff o).2 h

end Runs

section General

variable (decode : String → Except GoError TaskResult) (c : Client) (taskID : Int)
  (opts : WaitOptions)

theorem waitLoop_not_pending (fuel : Nat) (attempt : Int) (t : Trace)
    (h : attempt < opts.MaxAttempts)
    (hp : isPending (fetchOutcome decode c taskID (fetchCalls t)) = false) :
    ∃ out, waitLoop decode c taskID opts (fuel + 1) attempt t =
      some (out, t ++ [Event.roundTrip (getTaskResultRequest taskID)]) := by
  cases hf : fetchOutcome decode c taskID (fetchCalls t) with
  | error err => exact ⟨_, waitLoop_fetch_failed decode c taskID opts fuel attempt t err h hf⟩
  | ok r =>
    by_cases h1 : r.Status = "solved"
    · exact ⟨_, waitLoop_solved decode c taskID opts fuel attempt t r h hf h1⟩
    · by_cases h2 : r.Status = "error"
      · exact ⟨_, waitLoop_task_failed decode c taskID opts fuel attempt t r h hf h2⟩
      · rw [hf] at hp
        simp [isPending, h1, h2] at hp

/-- The shape of every run of the loop: `j` fetch-and-sleep cycles on
uninterpreted statuses, then either one more fetch on which the loop returns,
or (all attempts used) the error after the loop. -/
theorem waitLoop_run (fuel : Nat) :
    ∀ (attempt : Int) (t : Trace), (opts.MaxAttempts - attempt).toNat < fuel →
      ∃ (j : Nat) (out : Except GoError TaskResult),
        (∀ i, i < j → isPending (fetchOutcome decode c taskID (fetchCalls t + i)) = true) ∧
        ((waitLoop decode c taskID opts fuel attempt t =
              some (out, t ++ pollCycles taskID opts.Delay j ++
                [Event.roundTrip (getTaskResultRequest taskID)]) ∧
            attempt + j < opts.MaxAttempts ∧
            isPending (fetchOutcome decode c taskID (fetchCalls t + j)) = false) ∨
          (waitLoop decode c taskID opts fuel attempt t =
              some (out, t ++ pollCycles taskID opts.Delay j) ∧
            j = (opts.MaxAttempts - attempt).toNat ∧
            out = .error (attemptsExceeded taskID opts))) := by
  induction fuel with
  | zero => intro attempt t h; omega
  | succ fuel ih =>
    intro attempt t hfuel
    by_cases hlt : attempt < opts.MaxAttempts
    · cases hp : isPending (fetchOutcome decode c taskID (fetchCalls t)) with
      | false =>
        obtain ⟨out, hout⟩ := waitLoop_not_pending decode c taskID opts fuel attempt t hlt hp
        refine ⟨0, out, ?_, Or.inl ⟨?_, ?_, ?_⟩⟩
        · intro i hi; omega
        · simpa [pollCycles] using hout
        · simpa using hlt
        · simpa using hp
      | true =>
        have hstep := waitLoop_pending decode c taskID opts fuel attempt t hlt hp
        have hcalls : fetchCalls (t ++ [Event.roundTrip (getTaskResultRequest taskID),
            Event.sleep opts.Delay]) = fetchCalls t + 1 := by
          rw [fetchCalls_append]; rfl
        obtain ⟨j, out, hpre, hcase⟩ := ih (attempt + 1)
          (t ++ [Event.roundTrip (getTaskResultRequest taskID), Event.sleep opts.Delay])
          (by omega)
        have htrace : t ++ [Event.roundTrip (getTaskResultRequest taskID),
            Event.sleep opts.Delay] ++ pollCycles taskID opts.Delay j =
            t ++ pollCycles taskID opts.Delay (j + 1) := by
          simp [pollCycles]
        refine ⟨j + 1, out, ?_, ?_⟩
        · intro i hi
          cases i with
          | zero => simpa using hp
          | succ i =>
            have := hpre i (by omega)
            rw [hcalls] at this
            rw [show fetchCalls t + (i + 1) = fetchCalls t + 1 + i by omega]
            exact this
        · rcases hcase with ⟨hrun, hj, hlast⟩ | ⟨hrun, hj, hout⟩
          · refine Or.inl ⟨?_, ?_, ?_⟩
            · rw [hstep, hrun, htrace]
            · push_cast; omega
            · rw [hcalls] at hlast
              rw [show fetchCalls t + (j + 1) = fetchCalls t + 1 + j by omega]
              exact hlast
          · refine Or.inr ⟨?_, ?_, hout⟩
            · rw [hstep, hrun, htrace]
            · omega
    · refine ⟨0, _, ?_, Or.inr ⟨?_, ?_, rfl⟩⟩
      · intro i hi; omega
      · simpa [pollCycles] using waitLoop_exhausted decode c taskID opts fuel attempt t hlt
      · omega

/-- The shape of every run of `WaitForResult`. -/
theorem WaitForResult_run (t : Trace) :
    ∃ (j : Nat) (out : Except GoError TaskResult),
      (∀ i, i < j → isPending (fetchOutcome decode c taskID (fetchCalls t + i)) = true) ∧
      ((WaitForResult decode c taskID opts t =
            some (out, t ++ pollCycles taskID opts.Delay j ++
              [Event.roundTrip (getTaskResultRequest taskID)]) ∧
          (j : Int) < opts.MaxAttempts ∧
          isPending (fetchOutcome decode c taskID (fetchCalls t + j)) = false) ∨
        (WaitForResult decode c taskID opts t =
            some (out, t ++ pollCycles taskID opts.Delay j) ∧
          j = opts.MaxAttempts.toNat ∧
          out = .error (attemptsExceeded taskID opts))) := by
  have h := waitLoop_run decode c taskID opts (opts.MaxAttempts.toNat + 1) 0 t (by simp)
  simpa [WaitForResult] using h

end General

/-! ## The polling contract -/

/-- C1: when the first `k - 1` calls to `GetTaskResult` succeed with a status
that is neither "solved" nor "error" and the `k`-th call succeeds with status
"solved" (`1 ≤ k ≤ MaxAttempts`), `WaitForResult` returns exactly that `k`-th
result with no error, after exactly `k` fetches and exactly `k - 1` sleeps,
each of length `opts.Delay`. -/
theorem WaitForResult_solved_at_kth (decode : String → Except GoError TaskResult) (c : Client)
    (taskID : Int) (opts : WaitOptions) (t : Trace) (k : Nat) (r : TaskResult)
    (hk : 1 ≤ k) (hmax : (k : Int) ≤ opts.MaxAttempts)
    (hfirst : ∀ i, i < k - 1 → ∃ ri, fetchOutcome decode c taskID (fetchCalls t + i) = .ok ri ∧
      ri.Status ≠ "solved" ∧ ri.Status ≠ "error")
    (hkth : fetchOutcome decode c taskID (fetchCalls t + (k - 1)) = .ok r)
    (hsolved : r.Status = "solved") :
    ∃ t', WaitForResult decode c taskID opts t = some (.ok r, t') ∧
      t' = t ++ pollCycles taskID opts.Delay (k - 1) ++
        [Event.roundTrip (getTaskResultRequest taskID)] ∧
      fetchCalls t' = fetchCalls t + k ∧
      sleepDurations t' = sleepDurations t ++ List.replicate (k - 1) opts.Delay := by
  obtain ⟨fuel, hrun⟩ := WaitForResult_after_pending decode c taskID opts t (k - 1)
    (by omega) (fun i hi => pending_of_status _ (hfirst i hi))
  refine ⟨_, ?_, rfl, ?_, ?_⟩
  · rw [hrun]
    exact waitLoop_solved decode c taskID opts fuel _ _ r (by omega)
      (by rw [fetchCalls_after_cycles]; exact hkth) hsolved
  · rw [fetchCalls_after_cycles_fetch]; omega
  · rw [sleepDurations_after_cycles_fetch]

/-- C1 on the spec's instance: the script pending, pending, solved under the
default options gives 3 fetches, 2 sleeps of 5 s and the solved result. -/
theorem WaitForResult_solved_at_kth_witness :
    ∃ t', WaitForResult (scriptDecode demoBodies)
        (scriptClient [ok200 "pending", ok200 "pending", ok200 "solved"] (ok200 "pending"))
        7 DefaultWaitOptions [] =
        some (.ok { ResponseKey := "P1_token", Status := "solved", Error := "" }, t') ∧
      t' = [Event.roundTrip (getTaskResultRequest 7), Event.sleep 5000000000,
        Event.roundTrip (getTaskResultRequest 7), Event.sleep 5000000000,
        Event.roundTrip (getTaskResultRequest 7)] ∧
      fetchCalls t' = 3 ∧
      sleepDurations t' = [5000000000, 5000000000] :=
  WaitForResult_solved_at_kth (scriptDecode demoBodies)
    (scriptClient [ok200 "pending", ok200 "pending", ok200 "solved"] (ok200 "pending"))
    7 DefaultWaitOptions [] 3 { ResponseKey := "P1_token", Status := "solved", Error := "" }
    (by decide) (by decide)
    (by
      intro i hi
      have hi2 : i < 2 := hi
      interval_cases i
      · exact ⟨_, rfl, by decide, by decide⟩
      · exact ⟨_, rfl, by decide, by decide⟩)
    rfl rfl

/-- C2: when the first fetch with a terminal status is the `k`-th one made
(`1 ≤ k ≤ MaxAttempts`, the earlier ones having succeeded with statuses that
are neither "solved" nor "error") and its status is "error" with error field
`e`, `WaitForResult` returns no result and the error "task failed: " followed
by `e`; that fetch is the last effect of the run: `k` fetches in all, and the
`k - 1` sleeps all precede it. -/
theorem WaitForResult_error_at_kth (decode : String → Except GoError TaskResult) (c : Client)
    (taskID : Int) (opts : WaitOptions) (t : Trace) (k : Nat) (r : TaskResult)
    (hk : 1 ≤ k) (hmax : (k : Int) ≤ opts.MaxAttempts)
    (hfirst : ∀ i, i < k - 1 → ∃ ri, fetchOutcome decode c taskID (fetchCalls t + i) = .ok ri ∧
      ri.Status ≠ "solved" ∧ ri.Status ≠ "error")
    (hkth : fetchOutcome decode c taskID (fetchCalls t + (k - 1)) = .ok r)
    (herror : r.Status = "error") :
    ∃ err t', WaitForResult decode c taskID opts t = some (.error err, t') ∧
      err = .errorf ("task failed: " ++ r.Error) ∧
      err.message = "task failed: " ++ r.Error ∧
      t' = t ++ pollCycles taskID opts.Delay (k - 1) ++
        [Event.roundTrip (getTaskResultRequest taskID)] ∧
      fetchCalls t' = fetchCalls t + k ∧
      sleepDurations t' = sleepDurations t ++ List.replicate (k - 1) opts.Delay := by
  obtain ⟨fuel, hrun⟩ := WaitForResult_after_pending decode c taskID opts t (k - 1)
    (by omega) (fun i hi => pending_of_status _ (hfirst i hi))
  refine ⟨_, _, ?_, rfl, rfl, rfl, ?_, ?_⟩
  · rw [hrun]
    exact waitLoop_task_failed decode c taskID opts fuel _ _ r (by omega)
      (by rw [fetchCalls_after_cycles]; exact hkth) herror
  · rw [fetchCalls_after_cycles_fetch]; omega
  · rw [sleepDurations_after_cycles_fetch]

/-- C2 on the spec's instance: status "error" with error "invalid sitekey" on
the first poll gives one fetch, no sleep, and the message
"task failed: invalid sitekey". -/
theorem WaitForResult_error_at_kth_witness :
    ∃ err t', WaitForResult (scriptDecode demoBodies)
        (scriptClient [ok200 "error"] (ok200 "solved")) 7 DefaultWaitOptions [] =
        some (.error err, t') ∧
      err = .errorf "task failed: invalid sitekey" ∧
      err.message = "task failed: invalid sitekey" ∧
      t' = [Event.roundTrip (getTaskResultRequest 7)] ∧
      fetchCalls t' = 1 ∧
      sleepDurations t' = [] :=
  WaitForResult_error_at_kth (scriptDecode demoBodies)
    (scriptClient [ok200 "error"] (ok200 "solved")) 7 DefaultWaitOptions [] 1
    { ResponseKey := "", Status := "error", Error := "invalid sitekey" }
    (by decide) (by decide) (fun i hi => absurd hi (Nat.not_lt_zero i)) rfl rfl

/-- C3: with `MaxAttempts = n ≥ 1` and every fetch succeeding with status
"pending", `WaitForResult` makes exactly `n` fetches and then returns no result
and the error "task t did not complete within n attempts", with the task id
`t` and `n` in decimal. -/
theorem WaitForResult_attempts_exhausted (decode : String → Except GoError TaskResult)
    (c : Client) (taskID : Int) (opts : WaitOptions) (t : Trace) (n : Nat)
    (hn : 1 ≤ n) (hmax : opts.MaxAttempts = n)
    (hall : ∀ i, i < n → ∃ ri, fetchOutcome decode c taskID (fetchCalls t + i) = .ok ri ∧
      ri.Status = "pending") :
    ∃ err t', WaitForResult decode c taskID opts t = some (.error err, t') ∧
      err.message = "task " ++ toString taskID ++ " did not complete within " ++
        toString n ++ " attempts" ∧
      fetchCalls t' = fetchCalls t + n := by
  have hp : ∀ i, i < n → isPending (fetchOutcome decode c taskID (fetchCalls t + i)) = true := by
    intro i hi
    obtain ⟨ri, hri, hst⟩ := hall i hi
    exact pending_of_status _ ⟨ri, hri, by rw [hst]; decide, by rw [hst]; decide⟩
  refine ⟨attemptsExceeded taskID opts, t ++ pollCycles taskID opts.Delay n, ?_, ?_, ?_⟩
  · have hfuel : opts.MaxAttempts.toNat + 1 = 0 + 1 + n := by omega
    unfold WaitForResult
    rw [hfuel, waitLoop_pending_cycles decode c taskID opts n (0 + 1) 0 t (by omega) hp]
    exact waitLoop_exhausted decode c taskID opts 0 _ _ (by omega)
  · simp only [attemptsExceeded, GoError.message, hmax]
    rfl
  · rw [fetchCalls_after_cycles]

/-- C3 on the spec's instance: `MaxAttempts = 3` against a service that always
answers "pending" gives 3 fetches and an error naming task 7 and 3. -/
theorem WaitForResult_attempts_exhausted_witness :
    ∃ err t', WaitForResult (scriptDecode demoBodies) (scriptClient [] (ok200 "pending")) 7
        { MaxAttempts := 3, Delay := 5 } [] = some (.error err, t') ∧
      err.message = "task 7 did not complete within 3 attempts" ∧
      fetchCalls t' = 3 :=
  WaitForResult_attempts_exhausted (scriptDecode demoBodies) (scriptClient [] (ok200 "pending"))
    7 { MaxAttempts := 3, Delay := 5 } [] 3 (by decide) rfl
    (fun _ _ => ⟨{ ResponseKey := "", Status := "pending", Error := "" }, rfl, rfl⟩)

/-- C6: a failed fetch is not retried. If the first `k - 1` fetches came back
with statuses that are neither "solved" nor "error" and the `k`-th call to
`GetTaskResult` fails with `err` (`1 ≤ k ≤ MaxAttempts`), `WaitForResult`
returns no result and the error that wraps `err` behind the text
"error getting task result: ", after exactly `k` fetches, the failed one being
the last effect of the run. In every run, a fetch that is followed by another
fetch succeeded with a status that is neither "solved" nor "error". The calls
that fail are those with a transport error, a status code other than 200, or
a body that does not decode. -/
theorem WaitForResult_fetch_failure_not_retried (decode : String → Except GoError TaskResult)
    (c : Client) (taskID : Int) (opts : WaitOptions) :
    (∀ (t : Trace) (k : Nat) (err : GoError), 1 ≤ k → (k : Int) ≤ opts.MaxAttempts →
      (∀ i, i < k - 1 → ∃ ri, fetchOutcome decode c taskID (fetchCalls t + i) = .ok ri ∧
        ri.Status ≠ "solved" ∧ ri.Status ≠ "error") →
      fetchOutcome decode c taskID (fetchCalls t + (k - 1)) = .error err →
      ∃ e t', WaitForResult decode c taskID opts t = some (.error e, t') ∧
        e = .wrapf "error getting task result: " err ∧
        e.message = "error getting task result: " ++ err.message ∧
        e.unwrap = some err ∧
        t' = t ++ pollCycles taskID opts.Delay (k - 1) ++
          [Event.roundTrip (getTaskResultRequest taskID)] ∧
        fetchCalls t' = fetchCalls t + k ∧
        sleepDurations t' = sleepDurations t ++ List.replicate (k - 1) opts.Delay) ∧
    (∀ (t : Trace) (out : Except GoError TaskResult) (t' : Trace) (i : Nat),
      WaitForResult decode c taskID opts t = some (out, t') →
      fetchCalls t + i + 1 < fetchCalls t' →
      ∃ ri, fetchOutcome decode c taskID (fetchCalls t + i) = .ok ri ∧
        ri.Status ≠ "solved" ∧ ri.Status ≠ "error") ∧
    (∀ i : Nat,
      (∀ e, c.HTTPClient.answer i (getTaskResultRequest taskID) = .error e →
        fetchOutcome decode c taskID i = .error (.wrapf "error making request: " e)) ∧
      (∀ resp, c.HTTPClient.answer i (getTaskResultRequest taskID) = .ok resp →
        resp.StatusCode ≠ 200 →
        fetchOutcome decode c taskID i =
          .error (.errorf ("unexpected status code: " ++ toString resp.StatusCode))) ∧
      (∀ resp e, c.HTTPClient.answer i (getTaskResultRequest taskID) = .ok resp →
        resp.StatusCode = 200 → decode resp.Body = .error e →
        fetchOutcome decode c taskID i = .error (.wrapf "error decoding response: " e))) := by
  refine ⟨?_, ?_, fun i => fetchOutcome_failures decode c taskID i⟩
  · intro t k err hk hmax hfirst hkth
    obtain ⟨fuel, hrun⟩ := WaitForResult_after_pending decode c taskID opts t (k - 1)
      (by omega) (fun i hi => pending_of_status _ (hfirst i hi))
    refine ⟨_, _, ?_, rfl, rfl, rfl, rfl, ?_, ?_⟩
    · rw [hrun]
      exact waitLoop_fetch_failed decode c taskID opts fuel _ _ err (by omega)
        (by rw [fetchCalls_after_cycles]; exact hkth)
    · rw [fetchCalls_after_cycles_fetch]; omega
    · rw [sleepDurations_after_cycles_fetch]
  · intro t out t' i hrun hmore
    obtain ⟨j, out', hpre, hcase⟩ := WaitForResult_run decode c taskID opts t
    have hij : i < j := by
      rcases hcase with ⟨h, _, _⟩ | ⟨h, _, _⟩
      · rw [h] at hrun
        have ht : t ++ pollCycles taskID opts.Delay j ++
            [Event.roundTrip (getTaskResultRequest taskID)] = t' := by
          injection hrun with hrun
          exact (Prod.mk.inj hrun).2
        rw [← ht, fetchCalls_after_cycles_fetch] at hmore
        omega
      · rw [h] at hrun
        have ht : t ++ pollCycles taskID opts.Delay j = t' := by
          injection hrun with hrun
          exact (Prod.mk.inj hrun).2
        rw [← ht, fetchCalls_after_cycles] at hmore
        omega
    exact (isPending_iff _).1 (hpre i hij)

/-- C6 on a concrete run: "pending", then HTTP 500 on the second fetch: two
fetches, one sleep, and the wrapped status error. -/
theorem WaitForResult_fetch_failure_not_retried_witness :
    ∃ e t', WaitForResult (scriptDecode demoBodies)
        (scriptClient [ok200 "pending", .ok { StatusCode := 500, Body := "" }] (ok200 "solved"))
        7 DefaultWaitOptions [] = some (.error e, t') ∧
      e = .wrapf "error getting task result: " (.errorf "unexpected status code: 500") ∧
      e.message = "error getting task result: unexpected status code: 500" ∧
      e.unwrap = some (.errorf "unexpected status code: 500") ∧
      t' = [Event.roundTrip (getTaskResultRequest 7), Event.sleep 5000000000,
        Event.roundTrip (getTaskResultRequest 7)] ∧
      fetchCalls t' = 2 ∧
      sleepDurations t' = [5000000000] :=
  (WaitForResult_fetch_failure_not_retried (scriptDecode demoBodies)
    (scriptClient [ok200 "pending", .ok { StatusCode := 500, Body := "" }] (ok200 "solved"))
    7 DefaultWaitOptions).1 [] 2 (.errorf "unexpected status code: 500")
    (by decide) (by decide)
    (by
      intro i hi
      have hi1 : i < 1 := hi
      interval_cases i
      exact ⟨_, rfl, by decide, by decide⟩)
    rfl

/-! ## Statuses the loop does not interpret -/

theorem foldStatus_of_terminal (r : TaskResult) (h : r.Status = "solved" ∨ r.Status = "error") :
    foldStatus r = r := by
  simp [foldStatus, h]

theorem foldStatus_of_other (r : TaskResult) (h1 : r.Status ≠ "solved")
    (h2 : r.Status ≠ "error") : (foldStatus r).Status = "pending" := by
  simp [foldStatus, h1, h2]

theorem foldStatus_status_solved (r : TaskResult) :
    (foldStatus r).Status = "solved" ↔ r.Status = "solved" := by
  by_cases h1 : r.Status = "solved"
  · simp [foldStatus, h1]
  · by_cases h2 : r.Status = "error"
    · simp [foldStatus, h2]
    · simp [foldStatus, h1, h2]

theorem foldStatus_status_error (r : TaskResult) :
    (foldStatus r).Status = "error" ↔ r.Status = "error" := by
  by_cases h1 : r.Status = "solved"
  · simp [foldStatus, h1]
  · by_cases h2 : r.Status = "error"
    · simp [foldStatus, h2]
    · simp [foldStatus, h1, h2]

theorem foldOutcome_idem (o : Except GoError TaskResult) :
    foldOutcome (foldOutcome o) = foldOutcome o := by
  cases o with
  | error err => rfl
  | ok r =>
    simp only [foldOutcome]
    by_cases h : r.Status = "solved" ∨ r.Status = "error"
    · rw [foldStatus_of_terminal r h, foldStatus_of_terminal r h]
    · have h1 : r.Status ≠ "solved" := fun h' => h (Or.inl h')
      have h2 : r.Status ≠ "error" := fun h' => h (Or.inr h')
      simp [foldStatus, h1, h2]

/-- Folding the statuses inside the decoder folds the outcome of the fetch. -/
theorem fetchOutcome_fold_decode (decode : String → Except GoError TaskResult) (c : Client)
    (taskID : Int) (i : Nat) :
    fetchOutcome (fun body => foldOutcome (decode body)) c taskID i =
      foldOutcome (fetchOutcome decode c taskID i) := by
  simp only [fetchOutcome, GetTaskResult, HTTPClient.Do]
  cases c.HTTPClient.answer
      (fetchCalls (List.replicate i (Event.roundTrip (getTaskResultRequest taskID))))
      (getTaskResultRequest taskID) with
  | error err => rfl
  | ok resp =>
    by_cases hs : resp.StatusCode = 200
    · simp only [hs, ne_eq, not_true_eq_false, if_false]
      cases decode resp.Body <;> rfl
    · simp only [ne_eq, hs, not_false_eq_true, if_true]
      rfl

/-- Two services whose fetch outcomes agree after folding drive the loop the
same way. -/
theorem waitLoop_fold_congr (d1 d2 : String → Except GoError TaskResult) (c1 c2 : Client)
    (taskID : Int) (opts : WaitOptions)
    (hfold : ∀ i, foldOutcome (fetchOutcome d1 c1 taskID i) =
      foldOutcome (fetchOutcome d2 c2 taskID i))
    (fuel : Nat) :
    ∀ (attempt : Int) (t : Trace),
      waitLoop d1 c1 taskID opts fuel attempt t = waitLoop d2 c2 taskID opts fuel attempt t := by
  induction fuel with
  | zero => intro attempt t; rfl
  | succ fuel ih =>
    intro attempt t
    by_cases hlt : attempt < opts.MaxAttempts
    · have h := hfold (fetchCalls t)
      cases h1 : fetchOutcome d1 c1 taskID (fetchCalls t) with
      | error e1 =>
        cases h2 : fetchOutcome d2 c2 taskID (fetchCalls t) with
        | error e2 =>
          rw [h1, h2] at h
          simp only [foldOutcome, Except.error.injEq] at h
          subst h
          rw [waitLoop_fetch_failed d1 c1 taskID opts fuel attempt t e1 hlt h1,
            waitLoop_fetch_failed d2 c2 taskID opts fuel attempt t e1 hlt h2]
        | ok r2 =>
          rw [h1, h2] at h
          simp [foldOutcome] at h
      | ok r1 =>
        cases h2 : fetchOutcome d2 c2 taskID (fetchCalls t) with
        | error e2 =>
          rw [h1, h2] at h
          simp [foldOutcome] at h
        | ok r2 =>
          rw [h1, h2] at h
          simp only [foldOutcome, Except.ok.injEq] at h
          have hsol : r1.Status = "solved" ↔ r2.Status = "solved" := by
            rw [← foldStatus_status_solved r1, ← foldStatus_status_solved r2, h]
          have herr : r1.Status = "error" ↔ r2.Status = "error" := by
            rw [← foldStatus_status_error r1, ← foldStatus_status_error r2, h]
          by_cases s1 : r1.Status = "solved"
          · have heq : r1 = r2 := by
              rw [← foldStatus_of_terminal r1 (Or.inl s1),
                ← foldStatus_of_terminal r2 (Or.inl (hsol.1 s1))]
              exact h
            subst heq
            rw [waitLoop_solved d1 c1 taskID opts fuel attempt t r1 hlt h1 s1,
              waitLoop_solved d2 c2 taskID opts fuel attempt t r1 hlt h2 s1]
          · by_cases s2 : r1.Status = "error"
            · have heq : r1 = r2 := by
                rw [← foldStatus_of_terminal r1 (Or.inr s2),
                  ← foldStatus_of_terminal r2 (Or.inr (herr.1 s2))]
                exact h
              subst heq
              rw [waitLoop_task_failed d1 c1 taskID opts fuel attempt t r1 hlt h1 s2,
                waitLoop_task_failed d2 c2 taskID opts fuel attempt t r1 hlt h2 s2]
            · rw [waitLoop_other_status d1 c1 taskID opts fuel attempt t r1 hlt h1 s1 s2,
                waitLoop_other_status d2 c2 taskID opts fuel attempt t r2 hlt h2
                  (fun h' => s1 (hsol.2 h')) (fun h' => s2 (herr.2 h'))]
              exact ih _ _
    · rw [waitLoop_exhausted d1 c1 taskID opts fuel attempt t hlt,
        waitLoop_exhausted d2 c2 taskID opts fuel attempt t hlt]

/-- C7: the loop interprets only "solved" and "error". Two scripted services
whose fetch outcomes differ only in statuses that are neither "solved" nor
"error" (they agree once every such status is replaced by "pending") give
the same run: same outcome (result or error), same fetches, same sleeps. In
particular replacing every such status by "pending" changes nothing. And an
iteration whose fetch succeeds with such a status does not return: it sleeps
for `opts.Delay` and goes on to the next evaluation of the loop guard. -/
theorem WaitForResult_only_solved_and_error (d1 d2 : String → Except GoError TaskResult)
    (c1 c2 : Client) (taskID : Int) (opts : WaitOptions) :
    ((∀ i, foldOutcome (fetchOutcome d1 c1 taskID i) =
        foldOutcome (fetchOutcome d2 c2 taskID i)) →
      ∀ t, WaitForResult d1 c1 taskID opts t = WaitForResult d2 c2 taskID opts t) ∧
    (∀ t, WaitForResult (fun body => foldOutcome (d1 body)) c1 taskID opts t =
      WaitForResult d1 c1 taskID opts t) ∧
    (∀ (fuel : Nat) (attempt : Int) (t : Trace) (r : TaskResult),
      attempt < opts.MaxAttempts →
      fetchOutcome d1 c1 taskID (fetchCalls t) = .ok r →
      r.Status ≠ "solved" → r.Status ≠ "error" →
      waitLoop d1 c1 taskID opts (fuel + 1) attempt t =
        waitLoop d1 c1 taskID opts fuel (attempt + 1)
          (t ++ [Event.roundTrip (getTaskResultRequest taskID), Event.sleep opts.Delay])) := by
  refine ⟨?_, ?_, ?_⟩
  · intro hfold t
    exact waitLoop_fold_congr d1 d2 c1 c2 taskID opts hfold _ 0 t
  · intro t
    refine waitLoop_fold_congr _ d1 c1 c1 taskID opts ?_ _ 0 t
    intro i
    rw [fetchOutcome_fold_decode, foldOutcome_idem]
  · intro fuel attempt t r hlt hf h1 h2
    exact waitLoop_other_status d1 c1 taskID opts fuel attempt t r hlt hf h1 h2

/-- C7 on a concrete pair of scripts: the statuses "", "Solved", "processing"
followed by "solved" give the same run as "pending" three times followed by
"solved". -/
theorem WaitForResult_only_solved_and_error_witness :
    ∀ t, WaitForResult (scriptDecode demoBodies)
        (scriptClient [ok200 "", ok200 "Solved", ok200 "processing"] (ok200 "solved"))
        7 DefaultWaitOptions t =
      WaitForResult (scriptDecode demoBodies)
        (scriptClient [ok200 "pending", ok200 "pending", ok200 "pending"] (ok200 "solved"))
        7 DefaultWaitOptions t :=
  (WaitForResult_only_solved_and_error (scriptDecode demoBodies) (scriptDecode demoBodies)
    (scriptClient [ok200 "", ok200 "Solved", ok200 "processing"] (ok200 "solved"))
    (scriptClient [ok200 "pending", ok200 "pending", ok200 "pending"] (ok200 "solved"))
    7 DefaultWaitOptions).1
    (fun i => by
      simp only [fetchOutcome, GetTaskResult, HTTPClient.Do, fetchCalls_replicate, scriptClient]
      match i with
      | 0 => rfl
      | 1 => rfl
      | 2 => rfl
      | _ + 3 => rfl)

/-! ## Sleeps and the attempt budget -/

/-- C8, as the code has it: every sleep has length `opts.Delay` and follows a
fetch that succeeded with a status that is neither "solved" nor "error". A run
that returns from inside the loop does so on its last fetch, after `j + 1`
fetches and `j` sleeps, each sleep followed by a further fetch. A run that
uses up its attempts makes `MaxAttempts` fetches and sleeps as many times: its
last effect is a sleep. -/
theorem WaitForResult_sleeps_follow_pending (decode : String → Except GoError TaskResult)
    (c : Client) (taskID : Int) (opts : WaitOptions) (t : Trace) :
    ∃ (j : Nat) (out : Except GoError TaskResult) (t' : Trace),
      WaitForResult decode c taskID opts t = some (out, t') ∧
      sleepDurations t' = sleepDurations t ++ List.replicate j opts.Delay ∧
      (∀ i, i < j → ∃ ri, fetchOutcome decode c taskID (fetchCalls t + i) = .ok ri ∧
        ri.Status ≠ "solved" ∧ ri.Status ≠ "error") ∧
      ((t' = t ++ pollCycles taskID opts.Delay j ++
            [Event.roundTrip (getTaskResultRequest taskID)] ∧
          fetchCalls t' = fetchCalls t + (j + 1) ∧
          (j : Int) < opts.MaxAttempts ∧
          isPending (fetchOutcome decode c taskID (fetchCalls t + j)) = false) ∨
        (t' = t ++ pollCycles taskID opts.Delay j ∧
          fetchCalls t' = fetchCalls t + j ∧
          j = opts.MaxAttempts.toNat ∧
          out = .error (attemptsExceeded taskID opts))) := by
  obtain ⟨j, out, hpre, hcase⟩ := WaitForResult_run decode c taskID opts t
  rcases hcase with ⟨hrun, hj, hlast⟩ | ⟨hrun, hj, hout⟩
  · exact ⟨j, out, _, hrun, sleepDurations_after_cycles_fetch taskID t opts.Delay j,
      fun i hi => (isPending_iff _).1 (hpre i hi),
      Or.inl ⟨rfl, fetchCalls_after_cycles_fetch taskID t opts.Delay j, hj, hlast⟩⟩
  · exact ⟨j, out, _, hrun, sleepDurations_after_cycles taskID t opts.Delay j,
      fun i hi => (isPending_iff _).1 (hpre i hi),
      Or.inr ⟨rfl, fetchCalls_after_cycles taskID t opts.Delay j, hj, hout⟩⟩

/-- C8, as the code has it, on a concrete run: two attempts against a service
that keeps answering "pending". -/
theorem WaitForResult_sleeps_follow_pending_witness :
    ∃ (j : Nat) (out : Except GoError TaskResult) (t' : Trace),
      WaitForResult (scriptDecode demoBodies) (scriptClient [] (ok200 "pending")) 7
        { MaxAttempts := 2, Delay := 5 } [] = some (out, t') ∧
      sleepDurations t' = sleepDurations [] ++ List.replicate j 5 ∧
      (∀ i, i < j → ∃ ri, fetchOutcome (scriptDecode demoBodies)
          (scriptClient [] (ok200 "pending")) 7 (fetchCalls [] + i) = .ok ri ∧
        ri.Status ≠ "solved" ∧ ri.Status ≠ "error") ∧
      ((t' = [] ++ pollCycles 7 5 j ++ [Event.roundTrip (getTaskResultRequest 7)] ∧
          fetchCalls t' = fetchCalls [] + (j + 1) ∧
          (j : Int) < 2 ∧
          isPending (fetchOutcome (scriptDecode demoBodies)
            (scriptClient [] (ok200 "pending")) 7 (fetchCalls [] + j)) = false) ∨
        (t' = [] ++ pollCycles 7 5 j ∧
          fetchCalls t' = fetchCalls [] + j ∧
          j = (2 : Int).toNat ∧
          out = .error (attemptsExceeded 7 { MaxAttempts := 2, Delay := 5 }))) :=
  WaitForResult_sleeps_follow_pending (scriptDecode demoBodies)
    (scriptClient [] (ok200 "pending")) 7 { MaxAttempts := 2, Delay := 5 } []

/-- C8 as stated fails: with `MaxAttempts = 1` and a service that answers
"pending", the run makes one fetch and then sleeps once (not zero times), and
that sleep is followed by no fetch. -/
theorem WaitForResult_sleeps_after_last_attempt :
    WaitForResult (scriptDecode demoBodies) (scriptClient [] (ok200 "pending")) 7
        { MaxAttempts := 1, Delay := 5 } [] =
      some (.error (.errorf "task 7 did not complete within 1 attempts"),
        [Event.roundTrip (getTaskResultRequest 7), Event.sleep 5]) ∧
    fetchCalls [Event.roundTrip (getTaskResultRequest 7), Event.sleep 5] = 1 ∧
    sleepDurations [Event.roundTrip (getTaskResultRequest 7), Event.sleep 5] = [5] ∧
    (sleepDurations [Event.roundTrip (getTaskResultRequest 7), Event.sleep 5]).length ≠
      fetchCalls [Event.roundTrip (getTaskResultRequest 7), Event.sleep 5] - 1 :=
  ⟨rfl, rfl, rfl, by decide⟩

/-- C10: with `MaxAttempts = m ≤ 0` the loop body never runs: no fetch, no
sleep (the trace is unchanged), and the error
"task t did not complete within m attempts" is returned whatever the service
would answer. In every run `WaitForResult` returns, having made at most
`max MaxAttempts 0` fetches. -/
theorem WaitForResult_attempt_budget (decode : String → Except GoError TaskResult)
    (c : Client) (taskID : Int) (opts : WaitOptions) (t : Trace) :
    (opts.MaxAttempts ≤ 0 →
      WaitForResult decode c taskID opts t =
        some (.error (.errorf ("task " ++ toString taskID ++ " did not complete within " ++
          toString opts.MaxAttempts ++ " attempts")), t)) ∧
    (∃ out t', WaitForResult decode c taskID opts t = some (out, t') ∧
      fetchCalls t' ≤ fetchCalls t + (max opts.MaxAttempts 0).toNat) := by
  constructor
  · intro hm
    exact waitLoop_exhausted decode c taskID opts _ 0 t (by omega)
  · obtain ⟨j, out, _, hcase⟩ := WaitForResult_run decode c taskID opts t
    rcases hcase with ⟨hrun, hj, _⟩ | ⟨hrun, hj, _⟩
    · refine ⟨out, _, hrun, ?_⟩
      rw [fetchCalls_after_cycles_fetch]
      have : (max opts.MaxAttempts 0).toNat = opts.MaxAttempts.toNat := by
        rw [max_eq_left (by omega)]
      omega
    · refine ⟨out, _, hrun, ?_⟩
      rw [fetchCalls_after_cycles]
      have : (max opts.MaxAttempts 0).toNat = opts.MaxAttempts.toNat := by
        rcases le_total opts.MaxAttempts 0 with h | h
        · rw [max_eq_right h]; simp [Int.toNat_of_nonpos h]
        · rw [max_eq_left h]
      omega

/-- C10 on a concrete run: `MaxAttempts = -2` against a service that would
answer "solved" at once: no effect, and the error names task 7 and -2. -/
theorem WaitForResult_attempt_budget_witness :
    WaitForResult (scriptDecode demoBodies) (scriptClient [] (ok200 "solved")) 7
        { MaxAttempts := -2, Delay := 5 } [] =
      some (.error (.errorf "task 7 did not complete within -2 attempts"), []) :=
  (WaitForResult_attempt_budget (scriptDecode demoBodies) (scriptClient [] (ok200 "solved")) 7
    { MaxAttempts := -2, Delay := 5 } []).1 (by decide)

/-- C9: `DefaultWaitOptions` is exactly 60 attempts and a delay of 5 seconds,
that is 5,000,000,000 nanoseconds. -/
theorem DefaultWaitOptions_values :
    DefaultWaitOptions = { MaxAttempts := 60, Delay := 5000000000 } ∧
    DefaultWaitOptions.MaxAttempts = 60 ∧
    DefaultWaitOptions.Delay = 5 * Second ∧
    Second = 1000000000 := by
  refine ⟨by decide, rfl, rfl, rfl⟩

/-! ## The two endpoints -/

/-- C4: when the transport hands back a response whose status code `s` is not
200, `CreateTask` and `GetTaskResult` both return no result and the error
"unexpected status code: s" with `s` in decimal, whatever the body is and
whatever the decoder would make of it; the error is never the
"error decoding response" one. -/
theorem unexpected_status_before_decode
    (decodeCreate : String → Except GoError CreateTaskResponse)
    (decodeResult : String → Except GoError TaskResult) (c : Client)
    (taskData : HCaptchaTaskData) (taskType : HCaptchaType) (taskID : Int) (t : Trace) :
    (∀ resp : Response,
      c.HTTPClient.answer (fetchCalls t) (createTaskRequest c taskData taskType) = .ok resp →
      resp.StatusCode ≠ 200 →
      (CreateTask decodeCreate c taskData taskType t).1 =
          .error (.errorf ("unexpected status code: " ++ toString resp.StatusCode)) ∧
        ∀ e, (CreateTask decodeCreate c taskData taskType t).1 ≠
          .error (.wrapf "error decoding response: " e)) ∧
    (∀ resp : Response,
      c.HTTPClient.answer (fetchCalls t) (getTaskResultRequest taskID) = .ok resp →
      resp.StatusCode ≠ 200 →
      (GetTaskResult decodeResult c taskID t).1 =
          .error (.errorf ("unexpected status code: " ++ toString resp.StatusCode)) ∧
        ∀ e, (GetTaskResult decodeResult c taskID t).1 ≠
          .error (.wrapf "error decoding response: " e)) := by
  constructor
  · intro resp hresp hs
    have h : (CreateTask decodeCreate c taskData taskType t).1 =
        .error (.errorf ("unexpected status code: " ++ toString resp.StatusCode)) := by
      simp only [CreateTask, HTTPClient.Do, hresp, ne_eq, hs, not_false_eq_true, if_true]
    refine ⟨h, ?_⟩
    intro e he
    rw [h] at he
    cases he
  · intro resp hresp hs
    have h : (GetTaskResult decodeResult c taskID t).1 =
        .error (.errorf ("unexpected status code: " ++ toString resp.StatusCode)) := by
      simp only [GetTaskResult, HTTPClient.Do, hresp, ne_eq, hs, not_false_eq_true, if_true]
    refine ⟨h, ?_⟩
    intro e he
    rw [h] at he
    cases he

/-- C4 on the spec's instance: HTTP 500 with a body that does not decode makes
`CreateTask` fail with "unexpected status code: 500". -/
theorem unexpected_status_before_decode_witness :
    (CreateTask (fun _ => .error (.lib "unexpected end of JSON input"))
        (scriptClient [] (.ok { StatusCode := 500, Body := "<html>" }))
        demoTaskData
        HCaptchaBasic []).1 =
        .error (.errorf "unexpected status code: 500") ∧
      ∀ e, (CreateTask (fun _ => .error (.lib "unexpected end of JSON input"))
        (scriptClient [] (.ok { StatusCode := 500, Body := "<html>" }))
        demoTaskData
        HCaptchaBasic []).1 ≠ .error (.wrapf "error decoding response: " e) :=
  (unexpected_status_before_decode (fun _ => .error (.lib "unexpected end of JSON input"))
    (scriptDecode demoBodies) (scriptClient [] (.ok { StatusCode := 500, Body := "<html>" }))
    demoTaskData
    HCaptchaBasic 7 []).1 { StatusCode := 500, Body := "<html>" } rfl (by decide)

/-! ## Go strings through JSON -/

theorem EncodeRune_two (b0 s1 : Nat) (h0 : 0xC2 ≤ b0) (h0' : b0 ≤ 0xDF)
    (h1 : ¬ (s1 < 0x80 ∨ 0xBF < s1)) :
    EncodeRune ((b0 % 32) * 64 + s1 % 64) = [b0, s1] ∧
      ((b0 % 32) * 64 + s1 % 64).isValidChar := by
  have hr1 : ¬ (b0 % 32) * 64 + s1 % 64 < 0x80 := by omega
  have hr2 : (b0 % 32) * 64 + s1 % 64 ≤ 0x7FF := by omega
  refine ⟨?_, Or.inl (by omega)⟩
  simp only [EncodeRune, hr1, hr2, if_false, if_true, List.cons.injEq, and_true]
  constructor <;> omega

theorem EncodeRune_three (b0 s1 s2 lo hi : Nat) (h0 : 0xE0 ≤ b0) (h0' : b0 ≤ 0xEF)
    (hlo : (b0 = 0xE0 → lo = 0xA0) ∧ (b0 ≠ 0xE0 → lo = 0x80))
    (hhi : (b0 = 0xED → hi = 0x9F) ∧ (b0 ≠ 0xED → hi = 0xBF))
    (h1 : ¬ (s1 < lo ∨ hi < s1)) (h2 : ¬ (s2 < 0x80 ∨ 0xBF < s2)) :
    EncodeRune ((b0 % 16) * 4096 + (s1 % 64) * 64 + s2 % 64) = [b0, s1, s2] ∧
      ((b0 % 16) * 4096 + (s1 % 64) * 64 + s2 % 64).isValidChar := by
  have hs1 : 0x80 ≤ s1 ∧ s1 ≤ 0xBF := by
    by_cases h : b0 = 0xE0 <;> by_cases h' : b0 = 0xED <;> omega
  have hr1 : ¬ (b0 % 16) * 4096 + (s1 % 64) * 64 + s2 % 64 < 0x80 := by
    by_cases h : b0 = 0xE0 <;> omega
  have hr2 : ¬ (b0 % 16) * 4096 + (s1 % 64) * 64 + s2 % 64 ≤ 0x7FF := by
    by_cases h : b0 = 0xE0 <;> omega
  have hr3 : ¬ (0x10FFFF < (b0 % 16) * 4096 + (s1 % 64) * 64 + s2 % 64 ∨
      (0xD800 ≤ (b0 % 16) * 4096 + (s1 % 64) * 64 + s2 % 64 ∧
        (b0 % 16) * 4096 + (s1 % 64) * 64 + s2 % 64 ≤ 0xDFFF)) := by
    by_cases h : b0 = 0xED <;> omega
  have hr4 : (b0 % 16) * 4096 + (s1 % 64) * 64 + s2 % 64 ≤ 0xFFFF := by omega
  refine ⟨?_, ?_⟩
  · simp only [EncodeRune, hr1, hr2, hr3, hr4, if_false, if_true, List.cons.injEq, and_true]
    refine ⟨?_, ?_, ?_⟩ <;> omega
  · unfold Nat.isValidChar
    omega

theorem EncodeRune_four (b0 s1 s2 s3 lo hi : Nat) (h0 : 0xF0 ≤ b0) (h0' : b0 ≤ 0xF4)
    (hlo : (b0 = 0xF0 → lo = 0x90) ∧ (b0 ≠ 0xF0 → lo = 0x80))
    (hhi : (b0 = 0xF4 → hi = 0x8F) ∧ (b0 ≠ 0xF4 → hi = 0xBF))
    (h1 : ¬ (s1 < lo ∨ hi < s1)) (h2 : ¬ (s2 < 0x80 ∨ 0xBF < s2))
    (h3 : ¬ (s3 < 0x80 ∨ 0xBF < s3)) :
    EncodeRune ((b0 % 8) * 262144 + (s1 % 64) * 4096 + (s2 % 64) * 64 + s3 % 64) =
        [b0, s1, s2, s3] ∧
      ((b0 % 8) * 262144 + (s1 % 64) * 4096 + (s2 % 64) * 64 + s3 % 64).isValidChar := by
  have hs1 : 0x80 ≤ s1 ∧ s1 ≤ 0xBF := by
    by_cases h : b0 = 0xF0 <;> by_cases h' : b0 = 0xF4 <;> omega
  have hge : 0x10000 ≤ (b0 % 8) * 262144 + (s1 % 64) * 4096 + (s2 % 64) * 64 + s3 % 64 := by
    by_cases h : b0 = 0xF0 <;> omega
  have hle : (b0 % 8) * 262144 + (s1 % 64) * 4096 + (s2 % 64) * 64 + s3 % 64 ≤ 0x10FFFF := by
    by_cases h : b0 = 0xF4 <;> omega
  have hr1 : ¬ (b0 % 8) * 262144 + (s1 % 64) * 4096 + (s2 % 64) * 64 + s3 % 64 < 0x80 := by
    omega
  have hr2 : ¬ (b0 % 8) * 262144 + (s1 % 64) * 4096 + (s2 % 64) * 64 + s3 % 64 ≤ 0x7FF := by
    omega
  have hr3 : ¬ (0x10FFFF < (b0 % 8) * 262144 + (s1 % 64) * 4096 + (s2 % 64) * 64 + s3 % 64 ∨
      (0xD800 ≤ (b0 % 8) * 262144 + (s1 % 64) * 4096 + (s2 % 64) * 64 + s3 % 64 ∧
        (b0 % 8) * 262144 + (s1 % 64) * 4096 + (s2 % 64) * 64 + s3 % 64 ≤ 0xDFFF)) := by
    omega
  have hr4 : ¬ (b0 % 8) * 262144 + (s1 % 64) * 4096 + (s2 % 64) * 64 + s3 % 64 ≤ 0xFFFF := by
    omega
  refine ⟨?_, ?_⟩
  · simp only [EncodeRune, hr1, hr2, hr3, hr4, if_false, List.cons.injEq, and_true]
    refine ⟨?_, ?_, ?_, ?_⟩ <;> omega
  · unfold Nat.isValidChar
    omega

theorem firstByte_some (b0 sz lo hi : Nat) (h : firstByte b0 = some (sz, lo, hi)) :
    (sz = 1 ∧ b0 < 0x80) ∨
    (sz = 2 ∧ 0xC2 ≤ b0 ∧ b0 ≤ 0xDF ∧ lo = 0x80 ∧ hi = 0xBF) ∨
    (sz = 3 ∧ 0xE0 ≤ b0 ∧ b0 ≤ 0xEF ∧
      ((b0 = 0xE0 → lo = 0xA0) ∧ (b0 ≠ 0xE0 → lo = 0x80)) ∧
      ((b0 = 0xED → hi = 0x9F) ∧ (b0 ≠ 0xED → hi = 0xBF))) ∨
    (sz = 4 ∧ 0xF0 ≤ b0 ∧ b0 ≤ 0xF4 ∧
      ((b0 = 0xF0 → lo = 0x90) ∧ (b0 ≠ 0xF0 → lo = 0x80)) ∧
      ((b0 = 0xF4 → hi = 0x8F) ∧ (b0 ≠ 0xF4 → hi = 0xBF))) := by
  unfold firstByte at h
  by_cases c0 : b0 < 0x80
  · rw [if_pos c0] at h
    simp only [Option.some.injEq, Prod.mk.injEq] at h
    omega
  · rw [if_neg c0] at h
    by_cases c1 : b0 < 0xC2
    · rw [if_pos c1] at h; cases h
    · rw [if_neg c1] at h
      by_cases c2 : b0 ≤ 0xDF
      · rw [if_pos c2] at h
        simp only [Option.some.injEq, Prod.mk.injEq] at h
        omega
      · rw [if_neg c2] at h
        by_cases c3 : b0 = 0xE0
        · rw [if_pos c3] at h
          simp only [Option.some.injEq, Prod.mk.injEq] at h
          omega
        · rw [if_neg c3] at h
          by_cases c4 : b0 ≤ 0xEC
          · rw [if_pos c4] at h
            simp only [Option.some.injEq, Prod.mk.injEq] at h
            omega
          · rw [if_neg c4] at h
            by_cases c5 : b0 = 0xED
            · rw [if_pos c5] at h
              simp only [Option.some.injEq, Prod.mk.injEq] at h
              omega
            · rw [if_neg c5] at h
              by_cases c6 : b0 ≤ 0xEF
              · rw [if_pos c6] at h
                simp only [Option.some.injEq, Prod.mk.injEq] at h
                omega
              · rw [if_neg c6] at h
                by_cases c7 : b0 = 0xF0
                · rw [if_pos c7] at h
                  simp only [Option.some.injEq, Prod.mk.injEq] at h
                  omega
                · rw [if_neg c7] at h
                  by_cases c8 : b0 ≤ 0xF3
                  · rw [if_pos c8] at h
                    simp only [Option.some.injEq, Prod.mk.injEq] at h
                    omega
                  · rw [if_neg c8] at h
                    by_cases c9 : b0 = 0xF4
                    · rw [if_pos c9] at h
                      simp only [Option.some.injEq, Prod.mk.injEq] at h
                      omega
                    · rw [if_neg c9] at h
                      cases h

theorem DecodeRune_cases (b0 : Nat) (rest : List Nat) :
    DecodeRune b0 rest = (RuneError, 1) ∨
    ∃ r size, DecodeRune b0 rest = (r, size) ∧ 1 ≤ size ∧
      EncodeRune r = (b0 :: rest).take size ∧ rest.drop (size - 1) = (b0 :: rest).drop size ∧
      size ≤ rest.length + 1 ∧ r.isValidChar := by
  unfold DecodeRune
  cases hf : firstByte b0 with
  | none => left; rfl
  | some x =>
    obtain ⟨sz, lo, hi⟩ := x
    simp only
    rcases firstByte_some b0 sz lo hi hf with ⟨rfl, hb⟩ | ⟨rfl, hb, hb', rfl, rfl⟩ |
      ⟨rfl, hb, hb', hlo, hhi⟩ | ⟨rfl, hb, hb', hlo, hhi⟩
    · right
      refine ⟨b0, 1, by simp, le_refl _, ?_, rfl, by simp, Or.inl (by omega)⟩
      simp [EncodeRune, hb]
    · cases rest with
      | nil => left; simp
      | cons s1 rest1 =>
        by_cases h1 : s1 < 0x80 ∨ 0xBF < s1
        · left; simp [h1]
        · right
          obtain ⟨he, hv⟩ := EncodeRune_two b0 s1 hb hb' h1
          exact ⟨_, 2, by simp [h1], by omega, by simpa using he, rfl, by simp, hv⟩
    · cases rest with
      | nil => left; simp
      | cons s1 rest1 =>
        by_cases h1 : s1 < lo ∨ hi < s1
        · left; simp [h1]
        · cases rest1 with
          | nil => left; simp [h1]
          | cons s2 rest2 =>
            by_cases h2 : s2 < 0x80 ∨ 0xBF < s2
            · left; simp [h1, h2]
            · right
              obtain ⟨he, hv⟩ := EncodeRune_three b0 s1 s2 lo hi hb hb' hlo hhi h1 h2
              exact ⟨_, 3, by simp [h1, h2], by omega, by simpa using he, rfl, by simp, hv⟩
    · cases rest with
      | nil => left; simp
      | cons s1 rest1 =>
        by_cases h1 : s1 < lo ∨ hi < s1
        · left; simp [h1]
        · cases rest1 with
          | nil => left; simp [h1]
          | cons s2 rest2 =>
            by_cases h2 : s2 < 0x80 ∨ 0xBF < s2
            · left; simp [h1, h2]
            · cases rest2 with
              | nil => left; simp [h1, h2]
              | cons s3 rest3 =>
                by_cases h3 : s3 < 0x80 ∨ 0xBF < s3
                · left; simp [h1, h2, h3]
                · right
                  obtain ⟨he, hv⟩ :=
                    EncodeRune_four b0 s1 s2 s3 lo hi hb hb' hlo hhi h1 h2 h3
                  exact ⟨_, 4, by simp [h1, h2, h3], by omega, by simpa using he, rfl,
                    by simp, hv⟩

theorem toNat_ofNat_valid (n : Nat) (h : n.isValidChar) : (Char.ofNat n).toNat = n := by
  simp [Char.ofNat, h, Char.ofNatAux, Char.toNat, UInt32.toNat]

/-- Reading a valid UTF-8 string rune by rune and encoding the runes again
gives the string back. -/
theorem encodeRunes_decodeRunes (fuel : Nat) :
    ∀ bs : List Nat, bs.length ≤ fuel → validRunes fuel bs = true →
      encodeRunes ((decodeRunes fuel bs).map Char.ofNat) = bs := by
  induction fuel with
  | zero =>
    intro bs hlen _
    have : bs = [] := List.length_eq_zero.1 (by omega)
    subst this
    rfl
  | succ fuel ih =>
    intro bs hlen hv
    cases bs with
    | nil => rfl
    | cons b0 rest =>
      simp only [validRunes, Bool.and_eq_true, decide_eq_true_eq] at hv
      obtain ⟨hne, hrest⟩ := hv
      rcases DecodeRune_cases b0 rest with h | ⟨r, size, hd, h1, henc, hdrop, hsize, hvalid⟩
      · exact absurd h hne
      · rw [hd] at hrest
        have hlen' : (rest.drop (size - 1)).length ≤ fuel := by
          rw [List.length_drop]
          simp only [List.length_cons] at hlen
          omega
        simp only [decodeRunes, hd, List.map_cons, encodeRunes]
        rw [toNat_ofNat_valid r hvalid, henc, ih _ hlen' hrest, hdrop, List.take_append_drop]

theorem DecodeRune_size_pos (b0 : Nat) (rest : List Nat) : 1 ≤ (DecodeRune b0 rest).2 := by
  rcases DecodeRune_cases b0 rest with h | ⟨r, size, hd, h1, _⟩
  · rw [h]
  · rw [hd]; exact h1

/-- The length of a string is fuel enough to read all of it: more fuel reads
the same runes. -/
theorem decodeRunes_fuel (fuel1 : Nat) :
    ∀ (fuel2 : Nat) (bs : List Nat), bs.length ≤ fuel1 → bs.length ≤ fuel2 →
      decodeRunes fuel1 bs = decodeRunes fuel2 bs := by
  induction fuel1 with
  | zero =>
    intro fuel2 bs h1 _
    have : bs = [] := List.length_eq_zero.1 (by omega)
    subst this
    cases fuel2 <;> rfl
  | succ fuel1 ih =>
    intro fuel2 bs h1 h2
    cases bs with
    | nil => cases fuel2 <;> rfl
    | cons b0 rest =>
      simp only [List.length_cons] at h1 h2
      cases fuel2 with
      | zero => omega
      | succ fuel2 =>
        simp only [decodeRunes]
        have hlen : (rest.drop ((DecodeRune b0 rest).2 - 1)).length ≤ rest.length := by
          rw [List.length_drop]; omega
        rw [ih fuel2 _ (by omega) (by omega)]

/-- The length of a string is fuel enough to check all of it. -/
theorem validRunes_fuel (fuel1 : Nat) :
    ∀ (fuel2 : Nat) (bs : List Nat), bs.length ≤ fuel1 → bs.length ≤ fuel2 →
      validRunes fuel1 bs = validRunes fuel2 bs := by
  induction fuel1 with
  | zero =>
    intro fuel2 bs h1 _
    have : bs = [] := List.length_eq_zero.1 (by omega)
    subst this
    cases fuel2 <;> rfl
  | succ fuel1 ih =>
    intro fuel2 bs h1 h2
    cases bs with
    | nil => cases fuel2 <;> rfl
    | cons b0 rest =>
      simp only [List.length_cons] at h1 h2
      cases fuel2 with
      | zero => omega
      | succ fuel2 =>
        simp only [validRunes]
        have hlen : (rest.drop ((DecodeRune b0 rest).2 - 1)).length ≤ rest.length := by
          rw [List.length_drop]; omega
        rw [ih fuel2 _ (by omega) (by omega)]

/-- A valid UTF-8 string goes through `json.Marshal` and the JSON decoder
unchanged. -/
theorem goString_jsonText (s : GoString) (h : ValidString s = true) :
    goString (jsonText s) = s :=
  encodeRunes_decodeRunes s.length s (le_refl _) h

/-- The effect of `CreateTask` is one round trip carrying the request it
builds, whatever the transport answers. -/
theorem CreateTask_trace (decode : String → Except GoError CreateTaskResponse) (c : Client)
    (taskData : HCaptchaTaskData) (taskType : HCaptchaType) (t : Trace) :
    (CreateTask decode c taskData taskType t).2 =
      t ++ [Event.roundTrip (createTaskRequest c taskData taskType)] := by
  simp only [CreateTask, HTTPClient.Do]
  cases c.HTTPClient.answer (fetchCalls t) (createTaskRequest c taskData taskType) with
  | error err => rfl
  | ok resp =>
    by_cases hs : resp.StatusCode = 200
    · simp only [hs, ne_eq, not_true_eq_false, if_false]
      cases decode resp.Body <;> rfl
    · simp only [ne_eq, hs, not_false_eq_true, if_true]

/-- The JSON value `json.Marshal` gives for the payload. -/
theorem CreateTaskPayload.marshal_eq (p : CreateTaskPayload) :
    p.marshal = .obj [("key", .str (jsonText p.Key)), ("type", .str (jsonText p.Type_)),
      ("data", .obj ([("sitekey", .str (jsonText p.Data.Sitekey)),
        ("siteurl", .str (jsonText p.Data.Siteurl)),
        ("proxy", .str (jsonText p.Data.Proxy))] ++
        (if p.Data.Rqdata = [] then [] else [("rqdata", .str (jsonText p.Data.Rqdata))])))] := by
  by_cases hr : p.Data.Rqdata = []
  · simp [CreateTaskPayload.marshal, HCaptchaTaskData.marshal, marshalStruct, stringField,
      structField, hr]
  · simp [CreateTaskPayload.marshal, HCaptchaTaskData.marshal, marshalStruct, stringField,
      structField, hr]

/-- Decoding the marshalled payload gives each string as the JSON decoder
stores the text that was written for it. -/
theorem CreateTaskPayload.unmarshal_marshal (p : CreateTaskPayload) :
    CreateTaskPayload.unmarshal p.marshal =
      .ok { Key := goString (jsonText p.Key), Type_ := goString (jsonText p.Type_),
            Data := { Sitekey := goString (jsonText p.Data.Sitekey),
                      Siteurl := goString (jsonText p.Data.Siteurl),
                      Proxy := goString (jsonText p.Data.Proxy),
                      Rqdata := goString (jsonText p.Data.Rqdata) } } := by
  have hk : findField CreateTaskPayload.fieldNames "key" = some "key" := by decide
  have ht : findField CreateTaskPayload.fieldNames "type" = some "type" := by decide
  have hd : findField CreateTaskPayload.fieldNames "data" = some "data" := by decide
  have h1 : findField HCaptchaTaskData.fieldNames "sitekey" = some "sitekey" := by decide
  have h2 : findField HCaptchaTaskData.fieldNames "siteurl" = some "siteurl" := by decide
  have h3 : findField HCaptchaTaskData.fieldNames "proxy" = some "proxy" := by decide
  have h4 : findField HCaptchaTaskData.fieldNames "rqdata" = some "rqdata" := by decide
  rw [CreateTaskPayload.marshal_eq]
  by_cases hr : p.Data.Rqdata = []
  · simp [hr, CreateTaskPayload.unmarshal, CreateTaskPayload.storeMembers,
      CreateTaskPayload.storeMember, HCaptchaTaskData.unmarshal,
      HCaptchaTaskData.storeMembers, HCaptchaTaskData.storeMember, unmarshalString,
      hk, ht, hd, h1, h2, h3, Except.map]
    rfl
  · simp [hr, CreateTaskPayload.unmarshal, CreateTaskPayload.storeMembers,
      CreateTaskPayload.storeMember, HCaptchaTaskData.unmarshal,
      HCaptchaTaskData.storeMembers, HCaptchaTaskData.storeMember, unmarshalString,
      hk, ht, hd, h1, h2, h3, h4, Except.map]

/-- C5, as the code has it: the one round trip `CreateTask` makes carries, as
its body, a JSON object with exactly the members key, type and data, in that
order; key and type are the JSON strings written for the client's `APIKey`
and the task type, data is an object holding sitekey, siteurl and proxy and,
exactly when `Rqdata` is not empty, rqdata. Decoding that body into the
payload shape gives every string as the text written for it, encoded in
UTF-8. When the strings are valid UTF-8 the key is the `APIKey` verbatim and
the decoded payload is the key, type and task data that were sent, also when
`Rqdata` is empty and the member is left out. -/
theorem CreateTask_payload_round_trip (decode : String → Except GoError CreateTaskResponse)
    (c : Client) (taskData : HCaptchaTaskData) (taskType : HCaptchaType) (t : Trace) :
    ∃ (req : Request) (body : Json),
      (CreateTask decode c taskData taskType t).2 = t ++ [Event.roundTrip req] ∧
      req.Body = some body ∧
      body = .obj [("key", .str (jsonText c.APIKey)), ("type", .str (jsonText taskType)),
        ("data", .obj ([("sitekey", .str (jsonText taskData.Sitekey)),
          ("siteurl", .str (jsonText taskData.Siteurl)),
          ("proxy", .str (jsonText taskData.Proxy))] ++
          (if taskData.Rqdata = [] then []
            else [("rqdata", .str (jsonText taskData.Rqdata))])))] ∧
      CreateTaskPayload.unmarshal body =
        .ok { Key := goString (jsonText c.APIKey), Type_ := goString (jsonText taskType),
              Data := { Sitekey := goString (jsonText taskData.Sitekey),
                        Siteurl := goString (jsonText taskData.Siteurl),
                        Proxy := goString (jsonText taskData.Proxy),
                        Rqdata := goString (jsonText taskData.Rqdata) } } ∧
      (ValidString c.APIKey = true → ValidString taskType = true →
        ValidString taskData.Sitekey = true → ValidString taskData.Siteurl = true →
        ValidString taskData.Proxy = true → ValidString taskData.Rqdata = true →
        goString (jsonText c.APIKey) = c.APIKey ∧
        goString (jsonText taskType) = taskType ∧
        CreateTaskPayload.unmarshal body =
          .ok { Key := c.APIKey, Type_ := taskType, Data := taskData }) := by
  refine ⟨createTaskRequest c taskData taskType, _, CreateTask_trace decode c taskData taskType t,
    rfl, CreateTaskPayload.marshal_eq _, CreateTaskPayload.unmarshal_marshal _, ?_⟩
  intro hkey htype hsk hsu hpx hrq
  refine ⟨goString_jsonText _ hkey, goString_jsonText _ htype, ?_⟩
  rw [CreateTaskPayload.unmarshal_marshal]
  simp only [goString_jsonText _ hkey, goString_jsonText _ htype, goString_jsonText _ hsk,
    goString_jsonText _ hsu, goString_jsonText _ hpx, goString_jsonText _ hrq]

/-- C5 on a concrete submission: an ASCII key, the basic task type and task
data with a non-ASCII URL and no `Rqdata` come back from the body unchanged. -/
theorem CreateTask_payload_round_trip_witness :
    ∃ (req : Request) (body : Json),
      (CreateTask (fun _ => .error (.lib "EOF")) (scriptClient [] (ok200 "")) demoTaskData
        HCaptchaBasic []).2 = [] ++ [Event.roundTrip req] ∧
      req.Body = some body ∧
      goString (jsonText (goString "test-key")) = goString "test-key" ∧
      goString (jsonText HCaptchaBasic) = HCaptchaBasic ∧
      CreateTaskPayload.unmarshal body =
        .ok { Key := goString "test-key", Type_ := HCaptchaBasic, Data := demoTaskData } := by
  obtain ⟨req, body, h1, h2, _, _, h5⟩ :=
    CreateTask_payload_round_trip (fun _ => .error (.lib "EOF")) (scriptClient [] (ok200 ""))
      demoTaskData HCaptchaBasic []
  obtain ⟨h6, h7, h8⟩ := h5 (by decide) (by decide) (by decide) (by decide) (by decide)
    (by decide)
  exact ⟨req, body, h1, h2, h6, h7, h8⟩

/-- C5 as stated fails: an API key that is not valid UTF-8 (the single byte
0xFF) is not sent verbatim: the key member of the body is the text U+FFFD, and
decoding the body gives the three bytes EF BF BD, not the key. -/
theorem CreateTask_invalid_utf8_key_not_verbatim :
    (CreateTask (fun _ => .error (.lib "EOF")) invalidKeyClient demoTaskData HCaptchaBasic []).2 =
      [Event.roundTrip (createTaskRequest invalidKeyClient demoTaskData HCaptchaBasic)] ∧
    (createTaskRequest invalidKeyClient demoTaskData HCaptchaBasic).Body =
      some (.obj [("key", .str (String.mk [Char.ofNat 0xFFFD])), ("type", .str "hcaptcha_basic"),
        ("data", demoTaskData.marshal)]) ∧
    goString (String.mk [Char.ofNat 0xFFFD]) = [0xEF, 0xBF, 0xBD] ∧
    CreateTaskPayload.unmarshal
        (.obj [("key", .str (String.mk [Char.ofNat 0xFFFD])), ("type", .str "hcaptcha_basic"),
          ("data", demoTaskData.marshal)]) =
      .ok { Key := [0xEF, 0xBF, 0xBD], Type_ := HCaptchaBasic, Data := demoTaskData } ∧
    ({ Key := [0xEF, 0xBF, 0xBD], Type_ := HCaptchaBasic, Data := demoTaskData } :
      CreateTaskPayload) ≠
      { Key := invalidKeyClient.APIKey, Type_ := HCaptchaBasic, Data := demoTaskData } :=
  ⟨rfl, rfl, rfl, rfl, by decide⟩

end RazorCap
